import Mathlib

/-!
Verification of the scheduling / enrollment core of the eMadrasa school
management server.

The route handlers in `src/server/src/routes/{enrollments,classes,schedule,students}.ts`
are embedded as pure Lean functions over an explicit database state (`DB`).
Persistence is modelled as the abstract store the routes are written against
(entity lists with lookup by integer `id`, the shape declared in
`src/shared/api.ts`); the storage layer's unique index on
`(studentId, classId, status)` from `src/server/src/models/Enrollment.ts` is
modelled by a duplicate-triple guard on enrollment insert/update (a violation
surfaces as the route's catch-all 500, mutating nothing at that step).
Integer entity ids are positive in this system (they are `parseInt` images of
MongoDB ObjectId tails), so JavaScript truthiness tests on ids are modelled by
`Option` and emptiness tests on strings by comparison with `""`.

The id-dispatch quirk of `src/server/src/database.ts` (`getById` / `update` /
`delete` falling back to the first document when the id is not a valid
ObjectId) is embedded separately at the bottom of the file, over a raw
document collection keyed by ObjectId hex strings.
-/

set_option maxHeartbeats 1000000
set_option maxRecDepth 8000

namespace Madara

/-- Enrollment status enum (`shared/api.ts`, `models/Enrollment.ts`). -/
inductive EStatus where
  | active
  | inactive
  | transferred
  | graduated
deriving DecidableEq, Repr

/-- `Enrollment` entity (`shared/api.ts`). -/
structure Enrollment where
  id : Nat
  studentId : Nat
  classId : Nat
  enrollmentDate : String
  academicYear : String
  status : EStatus
deriving DecidableEq, Repr

/-- `Class` entity (`shared/api.ts`). -/
structure Class where
  id : Nat
  name : String
  schoolId : Nat
  teacherId : Option Nat
  subjectIds : List Nat
  primarySubjectId : Option Nat
  maxStudents : Nat
  currentStudents : Nat
  academicYear : String
deriving DecidableEq, Repr

/-- `Student` entity (`shared/api.ts`), fields the core logic reads. -/
structure Student where
  id : Nat
  name : String
  fullName : String
deriving DecidableEq, Repr

/-- `Teacher` entity (`shared/api.ts`), fields the core logic reads. -/
structure Teacher where
  id : Nat
  name : String
  schoolIds : List Nat
deriving DecidableEq, Repr

/-- `ClassSchedule` entity (`shared/api.ts`). -/
structure ClassSchedule where
  id : Nat
  classId : Nat
  subjectId : Nat
  dayOfWeek : Nat
  startTime : String
  endTime : String
  room : Option String
deriving DecidableEq, Repr

/-- The whole persisted state the core routes read and write.  `nextId` is
the id generator for newly created documents (fresh ids in Mongo). -/
structure DB where
  schools : List Nat
  subjects : List Nat
  teachers : List Teacher
  classes : List Class
  students : List Student
  enrollments : List Enrollment
  schedules : List ClassSchedule
  nextId : Nat
deriving DecidableEq, Repr

/-- Route handler outcome: an HTTP success payload or an error status with
its message (the `message` field of the JSON error body). -/
inductive Response (α : Type) where
  | ok (code : Nat) (data : α)
  | err (code : Nat) (msg : String)
deriving DecidableEq, Repr

/-- ASCII lower-casing of one character, as `toLowerCase` acts on A-Z. -/
def lowerChar (c : Char) : Char :=
  if 65 ≤ c.toNat ∧ c.toNat ≤ 90 then Char.ofNat (c.toNat + 32) else c

/-- String lower-casing (`String.prototype.toLowerCase`). -/
def lowerStr (s : String) : String :=
  ⟨s.data.map lowerChar⟩

/-- Numeric value of a digit character. -/
def digitVal (c : Char) : Nat := c.toNat - 48

/-- Minutes since midnight of an `HH:MM` (or `H:MM`) wall-clock string,
the value `new Date('1970-01-01T' + s + ':00')` carries (divided by 60000).
Anything not of that shape parses to 0. -/
def parseMinutes (s : String) : Nat :=
  match s.data with
  | [h1, h2, _, m1, m2] =>
      (digitVal h1 * 10 + digitVal h2) * 60 + (digitVal m1 * 10 + digitVal m2)
  | [h, _, m1, m2] =>
      digitVal h * 60 + (digitVal m1 * 10 + digitVal m2)
  | _ => 0

/-- The JavaScript-truthy value of an optional `room` field: a present,
non-empty label. -/
def roomVal (r : Option String) : String := r.getD ""

/-- `schedule.ts` `checkScheduleConflicts`, time-overlap test between the
candidate entry and one existing same-day entry:
`newStart < existingEnd && newEnd > existingStart` on the parsed times. -/
def overlapsB (candidate existing : ClassSchedule) : Bool :=
  parseMinutes candidate.startTime < parseMinutes existing.endTime &&
  parseMinutes existing.startTime < parseMinutes candidate.endTime

/-- `schedule.ts` `formatTimeRange`. -/
def formatTimeRange (startTime endTime : String) : String :=
  startTime ++ " - " ++ endTime

/-- Class lookup by integer id (abstract-store `findById`). -/
def findClass (db : DB) (cid : Nat) : Option Class :=
  db.classes.find? (fun c => c.id == cid)

/-- Teacher lookup by integer id. -/
def findTeacher (db : DB) (tid : Nat) : Option Teacher :=
  db.teachers.find? (fun t => t.id == tid)

/-- Student lookup by integer id. -/
def findStudent (db : DB) (sid : Nat) : Option Student :=
  db.students.find? (fun s => s.id == sid)

/-- Enrollment lookup by integer id. -/
def findEnrollment (db : DB) (eid : Nat) : Option Enrollment :=
  db.enrollments.find? (fun e => e.id == eid)

/-- `existingClass?.name || 'Unknown'` of `checkScheduleConflicts`. -/
def classNameOr (db : DB) (cid : Nat) : String :=
  match findClass db cid with
  | some c => if c.name == "" then "Unknown" else c.name
  | none => "Unknown"

/-- `teacher?.name || 'Unknown teacher'` of `checkScheduleConflicts`. -/
def teacherNameOr (db : DB) (tid : Nat) : String :=
  match findTeacher db tid with
  | some t => if t.name == "" then "Unknown teacher" else t.name
  | none => "Unknown teacher"

/-- Room-conflict condition of `checkScheduleConflicts`: both entries carry a
non-empty room and the labels agree case-insensitively. -/
def roomConflictB (candidate existing : ClassSchedule) : Bool :=
  roomVal existing.room != "" && roomVal candidate.room != "" &&
  lowerStr (roomVal existing.room) == lowerStr (roomVal candidate.room)

/-- Teacher-conflict condition of `checkScheduleConflicts`: both owning
classes resolve and have an assigned teacher, and it is the same teacher. -/
def teacherConflictB (db : DB) (candidate existing : ClassSchedule) : Bool :=
  match findClass db existing.classId, findClass db candidate.classId with
  | some ec, some nc =>
      match ec.teacherId, nc.teacherId with
      | some et, some nt => et == nt
      | _, _ => false
  | _, _ => false

/-- The room-conflict message pushed by `checkScheduleConflicts`. -/
def roomConflictMsg (db : DB) (candidate existing : ClassSchedule) : String :=
  "Room conflict: " ++ roomVal candidate.room ++ " is already booked at " ++
    formatTimeRange existing.startTime existing.endTime ++ " for class " ++
    classNameOr db existing.classId

/-- The teacher-conflict message pushed by `checkScheduleConflicts`. -/
def teacherConflictMsg (db : DB) (existing : ClassSchedule) : String :=
  "Teacher conflict: " ++
    (match findClass db existing.classId with
     | some ec => match ec.teacherId with
       | some et => teacherNameOr db et
       | none => "Unknown teacher"
     | none => "Unknown teacher") ++
    " is already scheduled at " ++ formatTimeRange existing.startTime existing.endTime

/-- Messages `checkScheduleConflicts` emits for the candidate against one
same-day existing entry: nothing unless the times overlap, then the room
check and the teacher check independently. -/
def pairConflicts (db : DB) (candidate existing : ClassSchedule) : List String :=
  if overlapsB candidate existing then
    (if roomConflictB candidate existing then [roomConflictMsg db candidate existing] else []) ++
    (if teacherConflictB db candidate existing then [teacherConflictMsg db existing] else [])
  else []

/-- `schedule.ts` `checkScheduleConflicts(schedule, excludeId?)`: all
persisted entries on the same day of week, minus the excluded id, each
checked for overlap and room/teacher double-booking. -/
def checkScheduleConflicts (db : DB) (schedule : ClassSchedule)
    (excludeId : Option Nat) : List String :=
  let sameDay := db.schedules.filter fun s =>
    s.dayOfWeek == schedule.dayOfWeek && some s.id != excludeId
  (sameDay.map (pairConflicts db schedule)).flatten

/-! ## Enrollment operations (`routes/enrollments.ts`, `routes/students.ts`) -/

/-- Number of enrollments of class `cid` with status `active`
(`database.updateClassStudentCount`'s `countDocuments` query, and the
`getEnrollmentsByClassId(..).filter(status === "active")` of the routes). -/
def activeCount (rows : List Enrollment) (cid : Nat) : Nat :=
  (rows.filter fun e => e.classId == cid && e.status == EStatus.active).length

/-- `database.updateClassStudentCount(classId)`: recompute the active
enrollment count of the class and persist it as `currentStudents`.  This is
the sole recompute routine of the system. -/
def updateClassStudentCount (db : DB) (cid : Nat) : DB :=
  { db with classes := db.classes.map fun c =>
      if c.id == cid then { c with currentStudents := activeCount db.enrollments cid } else c }

/-- Duplicate pre-check of the enrollment routes: the student already has an
active enrollment in this exact class. -/
def hasActive (rows : List Enrollment) (sid cid : Nat) : Bool :=
  rows.any fun e => e.studentId == sid && e.classId == cid && e.status == EStatus.active

/-- The storage layer's unique compound index over
`(studentId, classId, status)` (`models/Enrollment.ts`): saving or updating
`e` fails when a different row carries the same triple. -/
def tripleClash (rows : List Enrollment) (e : Enrollment) : Bool :=
  rows.any fun r =>
    r.id != e.id && r.studentId == e.studentId && r.classId == e.classId && r.status == e.status

/-- `POST /enrollments` (`createEnrollment`): validate student and class,
duplicate pre-check, capacity pre-check, insert an `active` enrollment,
recompute the class's `currentStudents`.  The unique-index guard surfaces as
the handler's catch-all 500. -/
def createEnrollment (db : DB) (studentId classId : Nat)
    (enrollmentDate academicYear : String) : DB × Response Enrollment :=
  match findStudent db studentId with
  | none => (db, .err 400 "Student not found")
  | some _ =>
  match findClass db classId with
  | none => (db, .err 400 "Class not found")
  | some cls =>
  if hasActive db.enrollments studentId classId then
    (db, .err 400 "Student is already enrolled in this class")
  else if cls.maxStudents ≤ activeCount db.enrollments classId then
    (db, .err 400 "Class is full. Maximum students reached.")
  else
    let e : Enrollment := ⟨db.nextId, studentId, classId, enrollmentDate, academicYear, .active⟩
    if tripleClash db.enrollments e then
      (db, .err 500 "Failed to create enrollment")
    else
      let db1 := { db with enrollments := db.enrollments ++ [e], nextId := db.nextId + 1 }
      (updateClassStudentCount db1 classId, .ok 201 e)

/-- `PUT /enrollments/:id` (`updateEnrollment`): persist the new status and
recompute `currentStudents` on the enrollment's class. -/
def updateEnrollment (db : DB) (eid : Nat) (status : EStatus) : DB × Response Enrollment :=
  match findEnrollment db eid with
  | none => (db, .err 404 "Enrollment not found")
  | some e =>
    let e' := { e with status := status }
    if tripleClash db.enrollments e' then
      (db, .err 500 "Failed to update enrollment")
    else
      let db1 := { db with enrollments := db.enrollments.map fun r => if r.id == eid then e' else r }
      (updateClassStudentCount db1 e.classId, .ok 200 e')

/-- `DELETE /enrollments/:id` (`deleteEnrollment`): hard delete, then
recompute `currentStudents` on the enrollment's class. -/
def deleteEnrollment (db : DB) (eid : Nat) : DB × Response Unit :=
  match findEnrollment db eid with
  | none => (db, .err 404 "Enrollment not found")
  | some e =>
    let db1 := { db with enrollments := db.enrollments.filter fun r => r.id != eid }
    (updateClassStudentCount db1 e.classId, .ok 200 ())

/-- Per-student loop body of `POST /enrollments/bulk`, threading the database
through the batch so each admission check sees earlier creations.  Returns
the final database, the created rows and the error messages, both in
processing order. -/
def bulkLoop (cls : Class) (classId : Nat) (enrollmentDate academicYear : String)
    (db : DB) : List Nat → DB × List Enrollment × List String
  | [] => (db, [], [])
  | sid :: rest =>
    match findStudent db sid with
    | none =>
      let r := bulkLoop cls classId enrollmentDate academicYear db rest
      (r.1, r.2.1, ("Student with ID " ++ toString sid ++ " not found") :: r.2.2)
    | some student =>
      if hasActive db.enrollments sid classId then
        let r := bulkLoop cls classId enrollmentDate academicYear db rest
        (r.1, r.2.1, ("Student " ++ student.name ++ " is already enrolled in this class") :: r.2.2)
      else if cls.maxStudents ≤ activeCount db.enrollments classId then
        let r := bulkLoop cls classId enrollmentDate academicYear db rest
        (r.1, r.2.1, ("Class is full. Cannot enroll student " ++ student.name) :: r.2.2)
      else
        let e : Enrollment := ⟨db.nextId, sid, classId, enrollmentDate, academicYear, .active⟩
        if tripleClash db.enrollments e then
          let r := bulkLoop cls classId enrollmentDate academicYear db rest
          (r.1, r.2.1, ("Failed to enroll student with ID " ++ toString sid) :: r.2.2)
        else
          let dbNext := { db with enrollments := db.enrollments ++ [e], nextId := db.nextId + 1 }
          let r := bulkLoop cls classId enrollmentDate academicYear dbNext rest
          (r.1, e :: r.2.1, r.2.2)

/-- `POST /enrollments/bulk` (`bulkCreateEnrollments`): iterate the students
in list order with incremental duplicate/capacity checks, never roll back,
and recompute `currentStudents` once after the whole batch. -/
def bulkCreateEnrollments (db : DB) (studentIds : List Nat) (classId : Nat)
    (enrollmentDate academicYear : String) :
    DB × Response (List Enrollment × List String) :=
  if studentIds.isEmpty then
    (db, .err 400 "studentIds must be a non-empty array")
  else
    match findClass db classId with
    | none => (db, .err 400 "Class not found")
    | some cls =>
      let r := bulkLoop cls classId enrollmentDate academicYear db studentIds
      (updateClassStudentCount r.1 classId, .ok 200 (r.2.1, r.2.2))

/-- `PUT /enrollments/:id/transfer` (`transferStudent`): close the old
enrollment as `transferred`, open a new `active` one in the new class dated
`today` with the old `academicYear`, and recompute both classes.  A falsy
(zero/absent) `newClassId` is rejected up front; the unique-index guards
surface as the catch-all 500, after the first write if that one succeeded. -/
def transferStudent (db : DB) (eid newClassId : Nat) (today : String) :
    DB × Response Enrollment :=
  if newClassId == 0 then
    (db, .err 400 "Invalid enrollment ID or new class ID")
  else
  match findEnrollment db eid with
  | none => (db, .err 404 "Enrollment not found")
  | some old =>
  match findClass db newClassId with
  | none => (db, .err 400 "New class not found")
  | some newClass =>
  if hasActive db.enrollments old.studentId newClassId then
    (db, .err 400 "Student is already enrolled in the new class")
  else if newClass.maxStudents ≤ activeCount db.enrollments newClassId then
    (db, .err 400 "New class is full. Maximum students reached.")
  else
    let oldClassId := old.classId
    let old' := { old with status := EStatus.transferred }
    if tripleClash db.enrollments old' then
      (db, .err 500 "Failed to transfer student")
    else
      let db1 := { db with enrollments := db.enrollments.map fun r => if r.id == eid then old' else r }
      let e : Enrollment :=
        ⟨db1.nextId, old.studentId, newClassId, today, old.academicYear, .active⟩
      if tripleClash db1.enrollments e then
        (db1, .err 500 "Failed to transfer student")
      else
        let db2 := { db1 with enrollments := db1.enrollments ++ [e], nextId := db1.nextId + 1 }
        (updateClassStudentCount (updateClassStudentCount db2 oldClassId) newClassId, .ok 200 e)

/-- Cascade loop of `DELETE /students/:id`: delete each enrollment of the
student, recomputing the touched class's count after each deletion. -/
def cascadeDelete (db : DB) : List Enrollment → DB
  | [] => db
  | e :: rest =>
    cascadeDelete
      (updateClassStudentCount
        { db with enrollments := db.enrollments.filter fun r => r.id != e.id } e.classId)
      rest

/-- `DELETE /students/:id` (`deleteStudent`): remove all of the student's
enrollments (any status), recomputing each affected class, then delete the
student. -/
def deleteStudent (db : DB) (sid : Nat) : DB × Response Unit :=
  match findStudent db sid with
  | none => (db, .err 404 "Student not found")
  | some _ =>
    let studentEnrollments := db.enrollments.filter fun e => e.studentId == sid
    let db1 := cascadeDelete db studentEnrollments
    ({ db1 with students := db1.students.filter fun s => s.id != sid }, .ok 200 ())

/-! ## Class creation and update (`routes/classes.ts`) -/

/-- One entry of the `schedule` array of a class create/update request. -/
structure ScheduleItem where
  subjectId : Nat
  dayOfWeek : Nat
  startTime : String
  endTime : String
  room : Option String
deriving DecidableEq, Repr

/-- `POST /classes` request body (`CreateClassRequest` in `shared/api.ts`). -/
structure CreateClassRequest where
  name : String
  schoolId : Nat
  teacherId : Option Nat
  subjectIds : List Nat
  primarySubjectId : Option Nat
  maxStudents : Nat
  academicYear : String
  schedule : Option (List ScheduleItem)
deriving DecidableEq, Repr

/-- `PUT /classes/:id` request body: every field optional
(`updateClassSchema = createClassSchema.partial()`). -/
structure UpdateClassRequest where
  name : Option String
  schoolId : Option Nat
  teacherId : Option Nat
  subjectIds : Option (List Nat)
  primarySubjectId : Option Nat
  maxStudents : Option Nat
  academicYear : Option String
  schedule : Option (List ScheduleItem)
deriving DecidableEq, Repr

/-- `[0-5][0-9]` minute part of the `HH:MM` time regex. -/
def isMinutePair (m1 m2 : Char) : Bool :=
  ('0' ≤ m1 && m1 ≤ '5') && m2.isDigit

/-- The anchored zod time regex `([0-1]?[0-9]|2[0-3]):[0-5][0-9]`. -/
def timeFormatOk (s : String) : Bool :=
  match s.data with
  | [h, c, m1, m2] => c == ':' && h.isDigit && isMinutePair m1 m2
  | [h1, h2, c, m1, m2] =>
    c == ':' &&
      (((h1 == '0' || h1 == '1') && h2.isDigit) || (h1 == '2' && ('0' ≤ h2 && h2 ≤ '3'))) &&
      isMinutePair m1 m2
  | _ => false

/-- zod `scheduleSchema`: day of week 0-6, `HH:MM` shaped times, room label
of at most 100 characters.  Note it does not compare the two times and does
not know the class's subject set. -/
def scheduleItemOk (it : ScheduleItem) : Bool :=
  it.dayOfWeek ≤ 6 && timeFormatOk it.startTime && timeFormatOk it.endTime &&
    (match it.room with | some r => r.length ≤ 100 | none => true)

/-- zod `createClassSchema` (shape checks only). -/
def createClassSchemaOk (d : CreateClassRequest) : Bool :=
  1 ≤ d.name.length && d.name.length ≤ 100 && 1 ≤ d.subjectIds.length &&
    1 ≤ d.maxStudents && d.maxStudents ≤ 100 &&
    (match d.schedule with | some items => items.all scheduleItemOk | none => true)

/-- zod `updateClassSchema` = the create schema with every field optional. -/
def updateClassSchemaOk (u : UpdateClassRequest) : Bool :=
  (match u.name with | some n => 1 ≤ n.length && n.length ≤ 100 | none => true) &&
    (match u.subjectIds with | some l => 1 ≤ l.length | none => true) &&
    (match u.maxStudents with | some m => 1 ≤ m && m ≤ 100 | none => true) &&
    (match u.schedule with | some items => items.all scheduleItemOk | none => true)

/-- `classes.ts` `validateScheduleTime`: start strictly before end. -/
def validateScheduleTime (startTime endTime : String) : Bool :=
  parseMinutes startTime < parseMinutes endTime

/-- Teacher existence / school-membership check shared by class create and
update. -/
def teacherCheck (db : DB) (tid? : Option Nat) (schoolId : Nat) : Option String :=
  match tid? with
  | none => none
  | some tid =>
    match findTeacher db tid with
    | none => some "Teacher not found"
    | some t =>
      if t.schoolIds.contains schoolId then none else some "Teacher is not assigned to this school"

/-- Subject existence loop of class create/update: the first missing subject
id produces the error. -/
def subjectsCheck (db : DB) (sids : List Nat) : Option String :=
  match sids.find? (fun sid => !(db.subjects.contains sid)) with
  | some sid => some ("Subject with ID " ++ toString sid ++ " not found")
  | none => none

/-- Schedule validation loop of `createClass`: for each entry in order,
first the time-range check, then membership of the entry's subject in the
class's subject set. -/
def validateScheduleItems (subjectIds : List Nat) : List ScheduleItem → Option String
  | [] => none
  | it :: rest =>
    if validateScheduleTime it.startTime it.endTime then
      if subjectIds.contains it.subjectId then validateScheduleItems subjectIds rest
      else some "Schedule subject must be included in class subjects"
    else some "End time must be after start time"

/-- Insert one `ClassSchedule` document per request entry, with fresh ids. -/
def insertSchedules (db : DB) (cid : Nat) (items : List ScheduleItem) : DB :=
  items.foldl
    (fun d it =>
      { d with
        schedules := d.schedules ++
          [⟨d.nextId, cid, it.subjectId, it.dayOfWeek, it.startTime, it.endTime, it.room⟩],
        nextId := d.nextId + 1 })
    db

/-- `primarySubjectId` (when truthy) must be a member of the subject list. -/
def primaryNotInList (p? : Option Nat) (sids : List Nat) : Bool :=
  match p? with
  | some p => !(sids.contains p)
  | none => false

/-- `POST /classes` (`createClass`): validation chain in source order, then
the class is created with `currentStudents = 0` and its schedule entries are
inserted. -/
def createClass (db : DB) (data : CreateClassRequest) : DB × Response Class :=
  if !(createClassSchemaOk data) then (db, .err 400 "Invalid class data")
  else if !(db.schools.contains data.schoolId) then (db, .err 400 "School not found")
  else match teacherCheck db data.teacherId data.schoolId with
  | some msg => (db, .err 400 msg)
  | none =>
  match subjectsCheck db data.subjectIds with
  | some msg => (db, .err 400 msg)
  | none =>
  if primaryNotInList data.primarySubjectId data.subjectIds then
    (db, .err 400 "Primary subject must be included in the subject list")
  else
  match (match data.schedule with
         | some items => validateScheduleItems data.subjectIds items
         | none => none) with
  | some msg => (db, .err 400 msg)
  | none =>
  if db.classes.any (fun c => c.schoolId == data.schoolId && lowerStr c.name == lowerStr data.name) then
    (db, .err 400 "Class with this name already exists in the school")
  else
    let newClass : Class :=
      ⟨db.nextId, data.name, data.schoolId, data.teacherId, data.subjectIds,
        data.primarySubjectId, data.maxStudents, 0, data.academicYear⟩
    let db1 := { db with classes := db.classes ++ [newClass], nextId := db.nextId + 1 }
    let db2 := match data.schedule with
      | some items => insertSchedules db1 newClass.id items
      | none => db1
    (db2, .ok 201 newClass)

/-- `$set` merge of a partial update into a class document.  zod strips
unknown keys, so `currentStudents` can never appear here. -/
def mergeClass (c : Class) (u : UpdateClassRequest) : Class :=
  { c with
    name := u.name.getD c.name
    schoolId := u.schoolId.getD c.schoolId
    teacherId := match u.teacherId with | some t => some t | none => c.teacherId
    subjectIds := u.subjectIds.getD c.subjectIds
    primarySubjectId := match u.primarySubjectId with | some p => some p | none => c.primarySubjectId
    maxStudents := u.maxStudents.getD c.maxStudents
    academicYear := u.academicYear.getD c.academicYear }

/-- `PUT /classes/:id` (`updateClass`): the source's validation chain (note:
no time-range or subject-membership validation of the `schedule` array),
then the field merge, then wholesale schedule replacement when a `schedule`
array is supplied. -/
def updateClass (db : DB) (id : Nat) (u : UpdateClassRequest) : DB × Response Class :=
  if !(updateClassSchemaOk u) then (db, .err 400 "Invalid class data")
  else match findClass db id with
  | none => (db, .err 404 "Class not found")
  | some existing =>
  match (match u.schoolId with
         | some s => if db.schools.contains s then none else some "School not found"
         | none => none) with
  | some msg => (db, .err 400 msg)
  | none =>
  match teacherCheck db u.teacherId (u.schoolId.getD existing.schoolId) with
  | some msg => (db, .err 400 msg)
  | none =>
  match (match u.subjectIds with
         | some sids =>
           match subjectsCheck db sids with
           | some msg => some msg
           | none =>
             match (match u.primarySubjectId with
                    | some p => some p
                    | none => existing.primarySubjectId) with
             | some p =>
               if sids.contains p then none
               else some "Primary subject must be included in the subject list"
             | none => none
         | none => none) with
  | some msg => (db, .err 400 msg)
  | none =>
  match (match u.name with
         | some n =>
           if lowerStr n != lowerStr existing.name &&
               db.classes.any (fun c =>
                 c.id != id && c.schoolId == u.schoolId.getD existing.schoolId &&
                   lowerStr c.name == lowerStr n) then
             some "Class with this name already exists in the school"
           else none
         | none => none) with
  | some msg => (db, .err 400 msg)
  | none =>
    let merged := mergeClass existing u
    let db1 := { db with classes := db.classes.map fun c => if c.id == id then merged else c }
    let db2 := match u.schedule with
      | some items =>
        insertSchedules { db1 with schedules := db1.schedules.filter fun s => s.classId != id } id items
      | none => db1
    (db2, .ok 200 merged)

/-! ## Room utilization (`schedule.ts` `getRoomUtilization`) -/

/-- One value of the room-utilization map. -/
structure RoomInfo where
  room : String
  totalHours : ℚ
  sessions : List (ClassSchedule × ℚ)
  conflicts : List String
deriving DecidableEq, Repr

/-- Session length in hours, `(end.getTime() - start.getTime()) / 3600000`. -/
def durationHours (s : ClassSchedule) : ℚ :=
  ((parseMinutes s.endTime : ℚ) - (parseMinutes s.startTime : ℚ)) / 60

/-- Fold one schedule entry into the utilization table (insertion-ordered
association list keyed by the lower-cased room label, as the JS `Map`).
Entries with a falsy room are skipped. -/
def roomFoldStep (db : DB) (acc : List (String × RoomInfo)) (s : ClassSchedule) :
    List (String × RoomInfo) :=
  if roomVal s.room == "" then acc
  else
    let key := lowerStr (roomVal s.room)
    let conflicts := checkScheduleConflicts db s (some s.id)
    if acc.any (fun kv => kv.1 == key) then
      acc.map fun kv =>
        if kv.1 == key then
          (kv.1,
            { kv.2 with
              totalHours := kv.2.totalHours + durationHours s
              sessions := kv.2.sessions ++ [(s, durationHours s)]
              conflicts := kv.2.conflicts ++ conflicts })
        else kv
    else
      acc ++ [(key, ⟨roomVal s.room, durationHours s, [(s, durationHours s)], conflicts⟩)]

/-- Insert into a list sorted by `totalHours` descending (the JS stable sort
with comparator `b.totalHours - a.totalHours`). -/
def insertByHoursDesc (x : RoomInfo) : List RoomInfo → List RoomInfo
  | [] => [x]
  | y :: ys => if y.totalHours < x.totalHours then x :: y :: ys else y :: insertByHoursDesc x ys

/-- Stable sort by `totalHours` descending. -/
def sortByHoursDesc : List RoomInfo → List RoomInfo
  | [] => []
  | x :: xs => insertByHoursDesc x (sortByHoursDesc xs)

/-- `GET /schedule/rooms` (`getRoomUtilization`): group all schedule entries
by case-insensitive room key (skipping falsy rooms), accumulate hours,
sessions and per-entry conflicts, and return the values sorted by
`totalHours` descending. -/
def getRoomUtilization (db : DB) : List RoomInfo :=
  sortByHoursDesc ((db.schedules.foldl (roomFoldStep db) []).map Prod.snd)

/-! ## The raw persistence layer's id dispatch (`database.ts`) -/

/-- A raw document: its ObjectId hex string and an opaque payload standing
for the rest of the document. -/
structure RawDoc where
  oid : String
  payload : Nat
deriving DecidableEq, Repr

/-- Hexadecimal digit test. -/
def isHexChar (c : Char) : Bool :=
  c.isDigit || ('a' ≤ c && c ≤ 'f') || ('A' ≤ c && c ≤ 'F')

/-- `mongoose.Types.ObjectId.isValid(id.toString())`: a 24-character hex
string, or any 12-character string (interpreted as a 12-byte id). -/
def isValidObjectId (s : String) : Bool :=
  (s.length == 24 && s.data.all isHexChar) || s.length == 12

/-- `database.getById`: dispatch on ObjectId validity; an invalid id falls
back to `findOne({})`, the first document of the collection. -/
def getById (coll : List RawDoc) (id : String) : Option RawDoc :=
  if isValidObjectId id then coll.find? (fun d => d.oid == id)
  else coll.head?

/-- The `_id` actually targeted by `database.update` / `database.delete`:
the given id when it is a valid ObjectId, otherwise the first document's. -/
def targetOid (coll : List RawDoc) (id : String) : Option String :=
  if isValidObjectId id then some id else coll.head?.map (fun d => d.oid)

/-- `database.update`: resolve the target id (with the first-document
fallback), then `findOneAndUpdate` with `$set`, returning the new document. -/
def update (coll : List RawDoc) (id : String) (f : Nat → Nat) :
    List RawDoc × Option RawDoc :=
  match targetOid coll id with
  | none => (coll, none)
  | some t =>
    match coll.find? (fun d => d.oid == t) with
    | none => (coll, none)
    | some d =>
      let d' := { d with payload := f d.payload }
      (coll.map (fun r => if r.oid == t then d' else r), some d')

/-- `database.delete`: resolve the target id (with the first-document
fallback), then `deleteOne`, reporting whether a document was removed. -/
def deleteById (coll : List RawDoc) (id : String) : List RawDoc × Bool :=
  match targetOid coll id with
  | none => (coll, false)
  | some t =>
    if coll.any (fun d => d.oid == t) then (coll.eraseP (fun d => d.oid == t), true)
    else (coll, false)

/-- Value of a hex digit character as `parseInt` reads it (0 otherwise);
48-57 are `0`-`9`, 97-102 are `a`-`f`, 65-70 are `A`-`F`. -/
def hexDigitVal (c : Char) : Nat :=
  if 48 ≤ c.toNat ∧ c.toNat ≤ 57 then c.toNat - 48
  else if 97 ≤ c.toNat ∧ c.toNat ≤ 102 then c.toNat - 87
  else if 65 ≤ c.toNat ∧ c.toNat ≤ 70 then c.toNat - 55
  else 0

/-- `parseInt(hex, 16)` over a character list. -/
def hexVal (cs : List Char) : Nat :=
  cs.foldl (fun a c => a * 16 + hexDigitVal c) 0

/-- The integer id the models' `toJSON` exposes:
`parseInt(_id.toString().slice(-8), 16)`. -/
def toJSONId (oid : String) : Nat :=
  hexVal (oid.data.drop (oid.data.length - 8))

/-- Least-significant-first decimal digits of `n`, with explicit fuel (any
fuel at least `n` is exact). -/
def decDigitsRev : Nat → Nat → List Nat
  | _, 0 => []
  | 0, _ => []
  | fuel + 1, n => (n % 10) :: decDigitsRev fuel (n / 10)

/-- `id.toString()` of a JavaScript integer: its decimal digit string. -/
def jsDecimalString (n : Nat) : String :=
  if n == 0 then "0"
  else ⟨(decDigitsRev n n).reverse.map (fun d => Char.ofNat (48 + d))⟩

/-! ## Concrete fixtures used to exercise the theorems -/

/-- A 09:00-10:00 day-1 entry in `Hall1` for class 1. -/
def schedTouchA : ClassSchedule := ⟨10, 1, 7, 1, "09:00", "10:00", some "Hall1"⟩

/-- A 10:00-11:00 day-1 entry in `Hall1` for class 1: touches `schedTouchA`. -/
def schedTouchB : ClassSchedule := ⟨11, 1, 7, 1, "10:00", "11:00", some "Hall1"⟩

/-- Database holding only `schedTouchB` and its class. -/
def dbTouch : DB :=
  ⟨[], [], [], [⟨1, "A", 1, some 4, [7], none, 30, 0, "y"⟩], [], [], [schedTouchB], 100⟩

/-- A 09:00-10:30 day-1 entry in `Hall1` for class 1. -/
def schedOv1 : ClassSchedule := ⟨10, 1, 7, 1, "09:00", "10:30", some "Hall1"⟩

/-- A 10:00-11:00 day-1 entry in `hall1` for class 2: overlaps `schedOv1`
with a case-insensitively equal room and the same teacher. -/
def schedOv2 : ClassSchedule := ⟨11, 2, 7, 1, "10:00", "11:00", some "hall1"⟩

/-- Two classes sharing teacher 4, `schedOv2` persisted. -/
def dbOv : DB :=
  ⟨[], [], [⟨4, "T", [1]⟩],
    [⟨1, "A", 1, some 4, [7], none, 30, 0, "y"⟩, ⟨2, "B", 1, some 4, [7], none, 30, 0, "y"⟩],
    [], [], [schedOv2], 100⟩

/-- A two-seat class, id 2, school 1. -/
def clsC1 : Class := ⟨2, "A", 1, some 4, [7], none, 2, 0, "2024"⟩

/-- A one-seat class with one student counted, id 2. -/
def clsC1full : Class := ⟨2, "A", 1, some 4, [7], none, 1, 1, "2024"⟩

/-- Student 5. -/
def stuC1 : Student := ⟨5, "aisha", "Aisha A"⟩

/-- School 1, subject 7, class `clsC1`, students 5 and 6, no enrollments. -/
def dbC1 : DB := ⟨[1], [7], [], [clsC1], [stuC1, ⟨6, "b", "B"⟩], [], [], 100⟩

/-- `dbC1` with student 5 already actively enrolled in class 2. -/
def dbC1dup : DB :=
  { dbC1 with enrollments := [⟨50, 5, 2, "2024-01-01", "2024", EStatus.active⟩] }

/-- One-seat class 2 already filled by student 6. -/
def dbC1full : DB :=
  ⟨[1], [7], [], [clsC1full], [stuC1, ⟨6, "b", "B"⟩],
    [⟨50, 6, 2, "2024-01-01", "2024", EStatus.active⟩], [], 100⟩

/-- The enrollment to be transferred: student 5 active in class 2. -/
def oldEnr : Enrollment := ⟨50, 5, 2, "2024-01-01", "2024", EStatus.active⟩

/-- Transfer target class, id 3, two seats. -/
def clsNew : Class := ⟨3, "B", 1, some 4, [7], none, 2, 0, "2024"⟩

/-- Database with classes 2 and 3 and the enrollment `oldEnr`. -/
def dbC3 : DB := ⟨[1], [7], [], [clsC1, clsNew], [stuC1], [oldEnr], [], 100⟩

/-- A two-seat class, id 2, with one seat already counted. -/
def clsC4 : Class := ⟨2, "A", 1, some 4, [7], none, 2, 1, "2024"⟩

/-- One free seat in class 2 (student 6 active), students 5, 6, 8 exist:
the spec's bulk-enrollment example shape. -/
def dbC4 : DB :=
  ⟨[1], [7], [], [clsC4], [stuC1, ⟨6, "b", "B"⟩, ⟨8, "c", "C"⟩],
    [⟨50, 6, 2, "2024-01-01", "2024", EStatus.active⟩], [], 100⟩

/-- The schedule entries the room-utilization report groups under the
case-insensitive key `key`: a truthy room whose lower-cased label is `key`. -/
def roomMatches (rows : List ClassSchedule) (key : String) : List ClassSchedule :=
  rows.filter fun s => roomVal s.room != "" && lowerStr (roomVal s.room) == key

/-- Well-formedness of one utilization-table entry over the processed
prefix: key is the lower-cased display label, the label is non-empty and is
the first-seen casing, and hours and sessions aggregate exactly the
matching entries, in order and without deduplication. -/
def RoomEntryOk (processed : List ClassSchedule) (kv : String × RoomInfo) : Prop :=
  kv.1 = lowerStr kv.2.room ∧ kv.2.room ≠ "" ∧
  (∃ s0 rest0, roomMatches processed kv.1 = s0 :: rest0 ∧ kv.2.room = roomVal s0.room) ∧
  kv.2.totalHours = ((roomMatches processed kv.1).map durationHours).sum ∧
  kv.2.sessions = (roomMatches processed kv.1).map fun s => (s, durationHours s)

/-- Well-formedness of the whole utilization table: distinct keys, each
entry correct, and every processed truthy-room entry represented. -/
def RoomTableOk (processed : List ClassSchedule) (T : List (String × RoomInfo)) : Prop :=
  (T.Pairwise fun a b => a.1 ≠ b.1) ∧
  (∀ kv ∈ T, RoomEntryOk processed kv) ∧
  (∀ s ∈ processed, roomVal s.room ≠ "" → ∃ kv ∈ T, kv.1 = lowerStr (roomVal s.room))

/-! ## Invariant vocabulary -/

/-- Enrollment ids are pairwise distinct and below the id generator (true
of any store whose ids were issued by the generator). -/
def IdsOk (db : DB) : Prop :=
  db.enrollments.Pairwise (fun a b => a.id ≠ b.id) ∧
    ∀ e ∈ db.enrollments, e.id < db.nextId

/-- The storage layer's unique compound index as a state invariant: no two
rows share the `(studentId, classId, status)` triple. -/
def UniqueTriples (rows : List Enrollment) : Prop :=
  rows.Pairwise fun a b =>
    ¬(a.studentId = b.studentId ∧ a.classId = b.classId ∧ a.status = b.status)

/-- At most one `active` enrollment row for any (studentId, classId) pair. -/
def AtMostOneActive (rows : List Enrollment) : Prop :=
  ∀ sid cid,
    (rows.filter fun e =>
      e.studentId == sid && e.classId == cid && e.status == EStatus.active).length ≤ 1

/-- Combined well-formedness carried through every enrollment operation. -/
def Inv (db : DB) : Prop := IdsOk db ∧ UniqueTriples db.enrollments

/-- States reachable through the enrollment operations from any
enrollment-free starting state. -/
inductive Reachable : DB → Prop where
  | init (db : DB) : db.enrollments = [] → Reachable db
  | create (db : DB) (sid cid : Nat) (d y : String) :
      Reachable db → Reachable (createEnrollment db sid cid d y).1
  | bulk (db : DB) (sids : List Nat) (cid : Nat) (d y : String) :
      Reachable db → Reachable (bulkCreateEnrollments db sids cid d y).1
  | updateStatus (db : DB) (eid : Nat) (st : EStatus) :
      Reachable db → Reachable (updateEnrollment db eid st).1
  | transfer (db : DB) (eid cid : Nat) (today : String) :
      Reachable db → Reachable (transferStudent db eid cid today).1
  | remove (db : DB) (eid : Nat) :
      Reachable db → Reachable (deleteEnrollment db eid).1
  | removeStudent (db : DB) (sid : Nat) :
      Reachable db → Reachable (deleteStudent db sid).1

/-! ## Shared lemmas -/

/-- The stored `currentStudents` of every class with id `cid` agrees with
the active-enrollment count of `cid`. -/
def countConsistentFor (db : DB) (cid : Nat) : Prop :=
  ∀ c ∈ db.classes, c.id = cid → c.currentStudents = activeCount db.enrollments cid

theorem updateCount_enrollments (db : DB) (cid : Nat) :
    (updateClassStudentCount db cid).enrollments = db.enrollments := rfl

theorem countConsistentFor_updateCount (db : DB) (cid : Nat) :
    countConsistentFor (updateClassStudentCount db cid) cid := by
  intro c hc hid
  simp only [updateClassStudentCount, List.mem_map] at hc
  obtain ⟨c0, _, hite⟩ := hc
  by_cases h : c0.id = cid
  · simp [h] at hite
    subst hite
    rfl
  · simp [h] at hite
    subst hite
    exact absurd hid h

theorem countConsistentFor_updateCount_preserve (db : DB) (cid cid' : Nat)
    (h : countConsistentFor db cid') :
    countConsistentFor (updateClassStudentCount db cid) cid' := by
  by_cases hc : cid = cid'
  · subst hc; exact countConsistentFor_updateCount db cid
  · intro c hmem hid
    simp only [updateClassStudentCount, List.mem_map] at hmem
    obtain ⟨c0, hc0, hite⟩ := hmem
    by_cases h0 : c0.id = cid
    · simp [h0] at hite
      subst hite
      exact absurd hid (by simpa [h0] using hc)
    · simp [h0] at hite
      subst hite
      exact h c0 hc0 hid

theorem updateCount_mem_of_ne (db : DB) (cid : Nat) (c : Class)
    (hc : c ∈ db.classes) (hne : c.id ≠ cid) :
    c ∈ (updateClassStudentCount db cid).classes := by
  simp only [updateClassStudentCount, List.mem_map]
  exact ⟨c, hc, by simp [hne]⟩

theorem hasActive_iff (rows : List Enrollment) (sid cid : Nat) :
    hasActive rows sid cid = true ↔
      ∃ e ∈ rows, e.studentId = sid ∧ e.classId = cid ∧ e.status = EStatus.active := by
  simp [hasActive, and_assoc]

theorem hasActive_eq_false_iff (rows : List Enrollment) (sid cid : Nat) :
    hasActive rows sid cid = false ↔
      ∀ e ∈ rows, e.studentId = sid → e.classId = cid → e.status ≠ EStatus.active := by
  rw [← Bool.not_eq_true, hasActive_iff]
  constructor
  · intro h e he h1 h2 h3
    exact h ⟨e, he, h1, h2, h3⟩
  · rintro h ⟨e, he, h1, h2, h3⟩
    exact h e he h1 h2 h3

theorem tripleClash_eq_false_iff (rows : List Enrollment) (e : Enrollment) :
    tripleClash rows e = false ↔
      ∀ r ∈ rows, r.id ≠ e.id →
        ¬(r.studentId = e.studentId ∧ r.classId = e.classId ∧ r.status = e.status) := by
  rw [← Bool.not_eq_true]
  simp only [tripleClash, List.any_eq_true, Bool.and_eq_true, bne_iff_ne, beq_iff_eq,
    and_assoc, not_exists]
  constructor
  · intro h r hr hid htr
    exact h r ⟨hr, hid, htr.1, htr.2.1, htr.2.2⟩
  · rintro h r ⟨hr, hid, h1, h2, h3⟩
    exact h r hr hid ⟨h1, h2, h3⟩

theorem tripleClash_active_of_not_hasActive (rows : List Enrollment) (sid cid nid : Nat)
    (d y : String) (h : hasActive rows sid cid = false) :
    tripleClash rows ⟨nid, sid, cid, d, y, EStatus.active⟩ = false := by
  rw [tripleClash_eq_false_iff]
  rw [hasActive_eq_false_iff] at h
  intro r hr _ htr
  exact h r hr htr.1 htr.2.1 htr.2.2

theorem activeCount_append (rows rows' : List Enrollment) (cid : Nat) :
    activeCount (rows ++ rows') cid = activeCount rows cid + activeCount rows' cid := by
  simp [activeCount, List.filter_append]

theorem activeCount_active_singleton (cid sid nid : Nat) (d y : String) :
    activeCount [⟨nid, sid, cid, d, y, EStatus.active⟩] cid = 1 := by
  simp [activeCount, List.filter]

/-! ## C5: the half-open same-day overlap test -/

/-- C5: the conflict detector treats two entries as overlapping exactly on
the half-open minutes test `start1 < end2 ∧ start2 < end1` (the same-day
restriction being the detector's filter); ranges that merely touch are never
overlapping; and a pair-set with no same-day overlap yields no conflict
messages of any kind.  The closed conjunct is the spec's touching example
09:00-10:00 vs 10:00-11:00 (same day, same room, same teacher). -/
theorem overlap_half_open_spec :
    (∀ c e : ClassSchedule, overlapsB c e = true ↔
        parseMinutes c.startTime < parseMinutes e.endTime ∧
          parseMinutes e.startTime < parseMinutes c.endTime) ∧
    (∀ c e : ClassSchedule, parseMinutes e.startTime = parseMinutes c.endTime →
        overlapsB c e = false) ∧
    (∀ (db : DB) (cand : ClassSchedule) (excl : Option Nat),
        (∀ s ∈ db.schedules, s.dayOfWeek = cand.dayOfWeek → some s.id ≠ excl →
          ¬(parseMinutes cand.startTime < parseMinutes s.endTime ∧
            parseMinutes s.startTime < parseMinutes cand.endTime)) →
        checkScheduleConflicts db cand excl = []) ∧
    checkScheduleConflicts
      ⟨[], [], [], [⟨1, "A", 1, some 4, [7], none, 30, 0, "y"⟩], [], [],
        [⟨11, 1, 7, 1, "10:00", "11:00", some "Hall1"⟩], 100⟩
      ⟨10, 1, 7, 1, "09:00", "10:00", some "Hall1"⟩ none = [] := by
  refine ⟨?_, ?_, ?_, by decide⟩
  · intro c e
    simp [overlapsB]
  · intro c e h
    simp only [overlapsB]
    rw [h]
    simp
  · intro db cand excl h
    simp only [checkScheduleConflicts, List.flatten_eq_nil_iff, List.mem_map]
    rintro x ⟨s, hs, rfl⟩
    rw [List.mem_filter] at hs
    obtain ⟨hmem, hcond⟩ := hs
    simp only [Bool.and_eq_true, beq_iff_eq, bne_iff_ne, ne_eq] at hcond
    have hno := h s hmem hcond.1 hcond.2
    have hfalse : overlapsB cand s = false := by
      rw [← Bool.not_eq_true]
      simp only [overlapsB, Bool.and_eq_true, decide_eq_true_eq]
      exact hno
    simp [pairConflicts, hfalse]

/-! ## C6: room and teacher conflict emission for an overlapping pair -/

theorem room_ne_teacher_msg (a b : String) :
    ("Room conflict: " ++ a) ≠ ("Teacher conflict: " ++ b) := by
  intro h
  have h2 := congrArg String.data h
  simp [String.data_append] at h2

/-- C6: for an overlapping pair, the detector emits the room-conflict
message iff both entries have a non-empty room with case-insensitively equal
labels, and independently the teacher-conflict message iff both owning
classes resolve with the same assigned teacher; the pair emits zero, one or
two messages accordingly, and the whole detector output is exactly the
concatenation of these per-pair emissions over the same-day non-excluded
entries. -/
theorem pair_conflict_emission_spec (db : DB) (cand ex : ClassSchedule)
    (hov : overlapsB cand ex = true) :
    (roomConflictMsg db cand ex ∈ pairConflicts db cand ex ↔
      roomVal ex.room ≠ "" ∧ roomVal cand.room ≠ "" ∧
        lowerStr (roomVal ex.room) = lowerStr (roomVal cand.room)) ∧
    (teacherConflictMsg db ex ∈ pairConflicts db cand ex ↔
      ∃ ec nc, findClass db ex.classId = some ec ∧ findClass db cand.classId = some nc ∧
        ∃ t, ec.teacherId = some t ∧ nc.teacherId = some t) ∧
    (pairConflicts db cand ex).length =
      (if roomConflictB cand ex then 1 else 0) +
        (if teacherConflictB db cand ex then 1 else 0) ∧
    (∀ excl, checkScheduleConflicts db cand excl =
      ((db.schedules.filter fun s =>
          s.dayOfWeek == cand.dayOfWeek && some s.id != excl).map
        (pairConflicts db cand)).flatten) := by
  have hroom : roomConflictB cand ex = true ↔
      roomVal ex.room ≠ "" ∧ roomVal cand.room ≠ "" ∧
        lowerStr (roomVal ex.room) = lowerStr (roomVal cand.room) := by
    simp [roomConflictB, and_assoc]
  have hteach : teacherConflictB db cand ex = true ↔
      ∃ ec nc, findClass db ex.classId = some ec ∧ findClass db cand.classId = some nc ∧
        ∃ t, ec.teacherId = some t ∧ nc.teacherId = some t := by
    constructor
    · intro h
      rcases hA : findClass db ex.classId with _ | ec
      · simp [teacherConflictB, hA] at h
      · rcases hB : findClass db cand.classId with _ | nc
        · simp [teacherConflictB, hA, hB] at h
        · rcases hC : ec.teacherId with _ | et
          · simp [teacherConflictB, hA, hB, hC] at h
          · rcases hD : nc.teacherId with _ | nt
            · simp [teacherConflictB, hA, hB, hC, hD] at h
            · simp only [teacherConflictB, hA, hB, hC, hD, beq_iff_eq] at h
              refine ⟨ec, nc, ?_, ?_, et, ?_, ?_⟩ <;>
                first
                | exact hA
                | exact hB
                | exact hC
                | rfl
                | rw [hD, h]
    · rintro ⟨ec, nc, hec, hnc, t, het, hnt⟩
      simp [teacherConflictB, hec, hnc, het, hnt]
  refine ⟨?_, ?_, ?_, fun _ => rfl⟩
  · rw [← hroom]
    simp only [pairConflicts, hov, if_true]
    constructor
    · intro h
      rw [List.mem_append] at h
      rcases h with h | h
      · by_cases hr : roomConflictB cand ex
        · exact hr
        · simp [hr] at h
      · by_cases ht : teacherConflictB db cand ex
        · simp only [ht, if_true, List.mem_singleton] at h
          exact absurd h (by
            simp only [roomConflictMsg, teacherConflictMsg]
            exact room_ne_teacher_msg _ _)
        · simp [ht] at h
    · intro h
      rw [List.mem_append]
      left
      simp [h]
  · rw [← hteach]
    simp only [pairConflicts, hov, if_true]
    constructor
    · intro h
      rw [List.mem_append] at h
      rcases h with h | h
      · by_cases hr : roomConflictB cand ex
        · simp only [hr, if_true, List.mem_singleton] at h
          exact absurd h.symm (by
            simp only [roomConflictMsg, teacherConflictMsg]
            exact room_ne_teacher_msg _ _)
        · simp [hr] at h
      · by_cases ht : teacherConflictB db cand ex
        · exact ht
        · simp [ht] at h
    · intro h
      rw [List.mem_append]
      right
      simp [h]
  · simp only [pairConflicts, hov, if_true, List.length_append]
    by_cases hr : roomConflictB cand ex <;> by_cases ht : teacherConflictB db cand ex <;>
      simp [hr, ht]

end Madara

namespace Madara

/-- Witness for C5 at the touching fixture: the iff at concrete entries,
touching ranges not overlapping, and an overlap-free store yielding no
messages. -/
theorem overlap_half_open_spec_witness :
    (overlapsB schedTouchA schedTouchB = true ↔
      parseMinutes schedTouchA.startTime < parseMinutes schedTouchB.endTime ∧
        parseMinutes schedTouchB.startTime < parseMinutes schedTouchA.endTime) ∧
    overlapsB schedTouchA schedTouchB = false ∧
    checkScheduleConflicts dbTouch schedTouchA none = [] :=
  ⟨overlap_half_open_spec.1 schedTouchA schedTouchB,
   overlap_half_open_spec.2.1 schedTouchA schedTouchB (by decide),
   overlap_half_open_spec.2.2.1 dbTouch schedTouchA none (by decide)⟩

/-- Witness for C6 at an overlapping fixture pair with both a room match and
a shared teacher. -/
theorem pair_conflict_emission_spec_witness :
    overlapsB schedOv1 schedOv2 = true ∧
    (pairConflicts dbOv schedOv1 schedOv2).length =
      (if roomConflictB schedOv1 schedOv2 then 1 else 0) +
        (if teacherConflictB dbOv schedOv1 schedOv2 then 1 else 0) :=
  ⟨by decide, (pair_conflict_emission_spec dbOv schedOv1 schedOv2 (by decide)).2.2.1⟩

end Madara

namespace Madara

theorem hexDigitVal_lt (c : Char) : hexDigitVal c < 16 := by
  unfold hexDigitVal
  split_ifs <;> omega

theorem hexVal_foldl_lt (cs : List Char) (a : Nat) :
    cs.foldl (fun a c => a * 16 + hexDigitVal c) a < (a + 1) * 16 ^ cs.length := by
  induction cs generalizing a with
  | nil => simp
  | cons c cs ih =>
    have hd := hexDigitVal_lt c
    have h1 : a * 16 + hexDigitVal c + 1 ≤ (a + 1) * 16 := by omega
    calc cs.foldl (fun a c => a * 16 + hexDigitVal c) (a * 16 + hexDigitVal c)
        < (a * 16 + hexDigitVal c + 1) * 16 ^ cs.length := ih _
      _ ≤ ((a + 1) * 16) * 16 ^ cs.length := Nat.mul_le_mul_right _ h1
      _ = (a + 1) * 16 ^ (cs.length + 1) := by ring

theorem toJSONId_lt_bound (oid : String) : toJSONId oid < 2 ^ 32 := by
  unfold toJSONId hexVal
  have h := hexVal_foldl_lt (oid.data.drop (oid.data.length - 8)) 0
  have hlen : (oid.data.drop (oid.data.length - 8)).length ≤ 8 := by
    rw [List.length_drop]; omega
  calc (oid.data.drop (oid.data.length - 8)).foldl (fun a c => a * 16 + hexDigitVal c) 0
      < (0 + 1) * 16 ^ (oid.data.drop (oid.data.length - 8)).length := h
    _ ≤ 1 * 16 ^ 8 := by
        simpa using Nat.pow_le_pow_right (by norm_num) hlen
    _ = 2 ^ 32 := by norm_num

theorem decDigitsRev_length_le (fuel n k : Nat) (h : n < 10 ^ k) :
    (decDigitsRev fuel n).length ≤ k := by
  induction fuel generalizing n k with
  | zero => cases n <;> simp [decDigitsRev]
  | succ fuel ih =>
    cases n with
    | zero => simp [decDigitsRev]
    | succ m =>
      rcases k with _ | k'
      · simp at h
      · simp only [decDigitsRev, List.length_cons]
        have hdiv : (m + 1) / 10 < 10 ^ k' := by
          rw [Nat.div_lt_iff_lt_mul (by norm_num)]
          calc m + 1 < 10 ^ (k' + 1) := h
            _ = 10 ^ k' * 10 := by ring
        exact Nat.succ_le_succ (ih _ _ hdiv)

theorem jsDecimalString_length_le (n : Nat) (h : n < 10 ^ 10) :
    (jsDecimalString n).length ≤ 10 := by
  unfold jsDecimalString
  split
  · decide
  · rw [String.length_mk, List.length_map, List.length_reverse]
    exact decDigitsRev_length_le n n 10 h

theorem isValidObjectId_jsDecimalString_false (n : Nat) (h : n < 2 ^ 32) :
    isValidObjectId (jsDecimalString n) = false := by
  have hl : (jsDecimalString n).length ≤ 10 :=
    jsDecimalString_length_le n (by calc n < 2 ^ 32 := h
                                      _ < 10 ^ 10 := by norm_num)
  unfold isValidObjectId
  have h24 : ((jsDecimalString n).length == 24) = false := by
    simp only [beq_eq_false_iff_ne, ne_eq]; omega
  have h12 : ((jsDecimalString n).length == 12) = false := by
    simp only [beq_eq_false_iff_ne, ne_eq]; omega
  rw [h24, h12]
  simp

/-- C10: `database.getById` / `update` / `delete` with an id that is not a
valid ObjectId do not fail or report not-found: they fall back to the first
document of the collection (read it, update it, delete it); and every
integer id the `toJSON` mapping exposes (`parseInt` of the last 8 ObjectId
hex digits, hence below `2^32`) stringifies to a decimal string that is
never a valid ObjectId. -/
theorem invalid_id_targets_first_doc :
    (∀ (coll : List RawDoc) (id : String), isValidObjectId id = false →
      getById coll id = coll.head?) ∧
    (∀ (coll : List RawDoc) (id : String) (f : Nat → Nat) (d : RawDoc) (rest : List RawDoc),
      isValidObjectId id = false → coll = d :: rest →
      (update coll id f).2 = some { d with payload := f d.payload }) ∧
    (∀ (coll : List RawDoc) (id : String) (d : RawDoc) (rest : List RawDoc),
      isValidObjectId id = false → coll = d :: rest →
      (deleteById coll id).2 = true ∧
        (deleteById coll id).1 = coll.eraseP (fun r => r.oid == d.oid)) ∧
    (∀ oid : String, toJSONId oid < 2 ^ 32) ∧
    (∀ n : Nat, n < 2 ^ 32 → isValidObjectId (jsDecimalString n) = false) := by
  refine ⟨?_, ?_, ?_, toJSONId_lt_bound, isValidObjectId_jsDecimalString_false⟩
  · intro coll id h
    simp [getById, h]
  · intro coll id f d rest h hcoll
    subst hcoll
    simp [update, targetOid, h]
  · intro coll id d rest h hcoll
    subst hcoll
    constructor
    · simp [deleteById, targetOid, h]
    · simp [deleteById, targetOid, h]

/-- Witness for C10: a two-document collection addressed with the integer-id
string `"123"`: reads, updates and deletes all hit the first document, and a
concrete ObjectId's exposed integer id round-trips to an invalid id string. -/
theorem invalid_id_targets_first_doc_witness :
    isValidObjectId "123" = false ∧
    getById [⟨"aaaaaaaaaaaaaaaaaaaaaaaa", 1⟩, ⟨"bbbbbbbbbbbbbbbbbbbbbbbb", 2⟩] "123" =
      some ⟨"aaaaaaaaaaaaaaaaaaaaaaaa", 1⟩ ∧
    (update [⟨"aaaaaaaaaaaaaaaaaaaaaaaa", 1⟩, ⟨"bbbbbbbbbbbbbbbbbbbbbbbb", 2⟩] "123"
        (fun p => p + 5)).2 = some ⟨"aaaaaaaaaaaaaaaaaaaaaaaa", 6⟩ ∧
    (deleteById [⟨"aaaaaaaaaaaaaaaaaaaaaaaa", 1⟩, ⟨"bbbbbbbbbbbbbbbbbbbbbbbb", 2⟩] "123").2 =
      true ∧
    isValidObjectId (jsDecimalString (toJSONId "68b1f2c3a4d5e6f708192a3b")) = false :=
  ⟨by decide,
   (invalid_id_targets_first_doc.1 _ "123" (by decide)).trans rfl,
   invalid_id_targets_first_doc.2.1 _ "123" (fun p => p + 5) _ _ (by decide) rfl,
   (invalid_id_targets_first_doc.2.2.1 _ "123" _ _ (by decide) rfl).1,
   invalid_id_targets_first_doc.2.2.2.2 _ (invalid_id_targets_first_doc.2.2.2.1 _)⟩

end Madara

namespace Madara

/-- C1: for a `POST /enrollments` whose student and class exist, a duplicate
active enrollment is rejected 400 with the duplicate message and untouched
state; otherwise a full class (active count at or above `maxStudents`) is
rejected 400 with the capacity message and untouched state; otherwise a new
`active` enrollment carrying the request's fields is inserted and the
class's `currentStudents` is recomputed. -/
theorem createEnrollment_spec (db : DB) (sid cid : Nat) (d y : String)
    (st : Student) (cls : Class)
    (hs : findStudent db sid = some st) (hc : findClass db cid = some cls) :
    (hasActive db.enrollments sid cid = true →
      createEnrollment db sid cid d y =
        (db, .err 400 "Student is already enrolled in this class")) ∧
    (hasActive db.enrollments sid cid = false →
      cls.maxStudents ≤ activeCount db.enrollments cid →
      createEnrollment db sid cid d y =
        (db, .err 400 "Class is full. Maximum students reached.")) ∧
    (hasActive db.enrollments sid cid = false →
      activeCount db.enrollments cid < cls.maxStudents →
      ∃ e : Enrollment,
        createEnrollment db sid cid d y =
          (updateClassStudentCount
            { db with enrollments := db.enrollments ++ [e], nextId := db.nextId + 1 } cid,
           .ok 201 e) ∧
        e.status = EStatus.active ∧ e.studentId = sid ∧ e.classId = cid ∧
        e.enrollmentDate = d ∧ e.academicYear = y ∧
        countConsistentFor (createEnrollment db sid cid d y).1 cid) := by
  refine ⟨?_, ?_, ?_⟩
  · intro h
    simp [createEnrollment, hs, hc, h]
  · intro h hcap
    simp [createEnrollment, hs, hc, h, hcap]
  · intro h hcap
    have h2 : ¬(cls.maxStudents ≤ activeCount db.enrollments cid) := Nat.not_le.mpr hcap
    have hnc := tripleClash_active_of_not_hasActive db.enrollments sid cid db.nextId d y h
    refine ⟨⟨db.nextId, sid, cid, d, y, EStatus.active⟩, ?_, rfl, rfl, rfl, rfl, rfl, ?_⟩
    · simp [createEnrollment, hs, hc, h, h2, hnc]
    · simp only [createEnrollment, hs, hc, h, h2, hnc, Bool.false_eq_true, if_false]
      exact countConsistentFor_updateCount _ _

/-- Witness for C1: duplicate rejection, capacity rejection and a successful
creation on concrete databases. -/
theorem createEnrollment_spec_witness :
    createEnrollment dbC1dup 5 2 "2024-02-01" "2024" =
      (dbC1dup, .err 400 "Student is already enrolled in this class") ∧
    createEnrollment dbC1full 5 2 "2024-02-01" "2024" =
      (dbC1full, .err 400 "Class is full. Maximum students reached.") ∧
    ∃ e : Enrollment,
      createEnrollment dbC1 5 2 "2024-02-01" "2024" =
        (updateClassStudentCount
          { dbC1 with enrollments := dbC1.enrollments ++ [e], nextId := dbC1.nextId + 1 } 2,
         .ok 201 e) ∧
      e.status = EStatus.active ∧ e.studentId = 5 ∧ e.classId = 2 ∧
      e.enrollmentDate = "2024-02-01" ∧ e.academicYear = "2024" ∧
      countConsistentFor (createEnrollment dbC1 5 2 "2024-02-01" "2024").1 2 :=
  ⟨(createEnrollment_spec dbC1dup 5 2 "2024-02-01" "2024" stuC1 clsC1
      (by decide) (by decide)).1 (by decide),
   (createEnrollment_spec dbC1full 5 2 "2024-02-01" "2024" stuC1 clsC1full
      (by decide) (by decide)).2.1 (by decide) (by decide),
   (createEnrollment_spec dbC1 5 2 "2024-02-01" "2024" stuC1 clsC1
      (by decide) (by decide)).2.2 (by decide) (by decide)⟩

end Madara

namespace Madara

/-- C3: a successful transfer whose preconditions hold (enrollment found,
new class found and below capacity, no duplicate active enrollment in the
new class) leaves the old enrollment in place with status `transferred`,
creates exactly one active enrollment for (studentId, newClassId) dated
`today` with the old enrollment's `academicYear`, and recomputes
`currentStudents` on both the old and the new class. -/
theorem transferStudent_spec (db : DB) (eid newCid : Nat) (today : String)
    (old : Enrollment) (newClass : Class)
    (hfind : findEnrollment db eid = some old)
    (hclass : findClass db newCid = some newClass)
    (hnz : newCid ≠ 0)
    (hdup : hasActive db.enrollments old.studentId newCid = false)
    (hcap : activeCount db.enrollments newCid < newClass.maxStudents) :
    ∀ e : Enrollment, (transferStudent db eid newCid today).2 = .ok 200 e →
      e.studentId = old.studentId ∧ e.classId = newCid ∧ e.status = EStatus.active ∧
      e.enrollmentDate = today ∧ e.academicYear = old.academicYear ∧
      { old with status := EStatus.transferred } ∈
        (transferStudent db eid newCid today).1.enrollments ∧
      (transferStudent db eid newCid today).1.enrollments.filter
        (fun r => r.studentId == old.studentId && r.classId == newCid &&
          r.status == EStatus.active) = [e] ∧
      countConsistentFor (transferStudent db eid newCid today).1 old.classId ∧
      countConsistentFor (transferStudent db eid newCid today).1 newCid := by
  intro e hok
  have hnzB : (newCid == 0) = false := by simpa using hnz
  have hcapn : ¬(newClass.maxStudents ≤ activeCount db.enrollments newCid) := Nat.not_le.mpr hcap
  have hfind' : db.enrollments.find? (fun r => r.id == eid) = some old := hfind
  have holdid : (old.id == eid) = true := by
    have := List.find?_some hfind'
    simpa using this
  have holdmem : old ∈ db.enrollments := List.mem_of_find?_eq_some hfind'
  have hdupP := (hasActive_eq_false_iff db.enrollments old.studentId newCid).mp hdup
  by_cases htc : tripleClash db.enrollments { old with status := EStatus.transferred } = true
  · exfalso
    revert hok
    simp [transferStudent, hnzB, hfind, hclass, hcapn, htc, hdup]
  · rw [Bool.not_eq_true] at htc
    have hg2 : tripleClash
        (db.enrollments.map fun r =>
          if r.id == eid then { old with status := EStatus.transferred } else r)
        ⟨db.nextId, old.studentId, newCid, today, old.academicYear, EStatus.active⟩ = false := by
      rw [tripleClash_eq_false_iff]
      intro r' hr' _ htr
      rw [List.mem_map] at hr'
      obtain ⟨r, hr, rfl⟩ := hr'
      by_cases hrid : (r.id == eid) = true
      · rw [if_pos hrid] at htr
        exact absurd htr.2.2 (by simp)
      · rw [if_neg (by simpa using (Bool.not_eq_true _).mp hrid)] at htr
        exact hdupP r hr htr.1 htr.2.1 htr.2.2
    simp only [beq_iff_eq] at hg2
    have hred : transferStudent db eid newCid today =
        (updateClassStudentCount
          (updateClassStudentCount
            { db with
                enrollments :=
                  (db.enrollments.map fun r =>
                    if r.id == eid then { old with status := EStatus.transferred } else r) ++
                  [⟨db.nextId, old.studentId, newCid, today, old.academicYear, EStatus.active⟩],
                nextId := db.nextId + 1 }
            old.classId)
          newCid,
         .ok 200 ⟨db.nextId, old.studentId, newCid, today, old.academicYear, EStatus.active⟩) := by
      simp [transferStudent, hnzB, hfind, hclass, hcapn, htc, hg2, hdup]
    have he : e = ⟨db.nextId, old.studentId, newCid, today, old.academicYear, EStatus.active⟩ := by
      rw [hred] at hok
      cases hok
      rfl
    subst he
    refine ⟨rfl, rfl, rfl, rfl, rfl, ?_, ?_, ?_, ?_⟩
    · rw [hred]
      simp only [updateCount_enrollments]
      rw [List.mem_append]
      left
      rw [List.mem_map]
      exact ⟨old, holdmem, by rw [if_pos holdid]⟩
    · rw [hred]
      simp only [updateCount_enrollments]
      rw [List.filter_append]
      have hA : (db.enrollments.map fun r =>
          if r.id == eid then { old with status := EStatus.transferred } else r).filter
            (fun r => r.studentId == old.studentId && r.classId == newCid &&
              r.status == EStatus.active) = [] := by
        rw [List.filter_eq_nil_iff]
        intro a ha
        rw [List.mem_map] at ha
        obtain ⟨r, hr, rfl⟩ := ha
        by_cases hrid : (r.id == eid) = true
        · rw [if_pos hrid]
          simp
        · rw [if_neg (by simpa using (Bool.not_eq_true _).mp hrid)]
          simp only [Bool.and_eq_true, beq_iff_eq, not_and]
          intro h1 h2
          rcases h1 with ⟨hs, hc⟩
          exact hdupP r hr hs hc h2
      rw [hA]
      simp
    · rw [hred]
      exact countConsistentFor_updateCount_preserve _ _ _ (countConsistentFor_updateCount _ _)
    · rw [hred]
      exact countConsistentFor_updateCount _ _

end Madara

namespace Madara

/-- Witness for C3: transferring enrollment 50 (student 5, class 2) to
class 3 on a concrete database. -/
theorem transferStudent_spec_witness :
    { oldEnr with status := EStatus.transferred } ∈
      (transferStudent dbC3 50 3 "2024-03-01").1.enrollments ∧
    (transferStudent dbC3 50 3 "2024-03-01").1.enrollments.filter
      (fun r => r.studentId == oldEnr.studentId && r.classId == 3 &&
        r.status == EStatus.active) =
      [⟨100, 5, 3, "2024-03-01", "2024", EStatus.active⟩] ∧
    countConsistentFor (transferStudent dbC3 50 3 "2024-03-01").1 oldEnr.classId ∧
    countConsistentFor (transferStudent dbC3 50 3 "2024-03-01").1 3 := by
  have h := transferStudent_spec dbC3 50 3 "2024-03-01" oldEnr clsNew
    (by decide) (by decide) (by decide) (by decide) (by decide)
    ⟨100, 5, 3, "2024-03-01", "2024", EStatus.active⟩ (by decide)
  exact ⟨h.2.2.2.2.2.1, h.2.2.2.2.2.2.1, h.2.2.2.2.2.2.2.1, h.2.2.2.2.2.2.2.2⟩

end Madara

namespace Madara

theorem bulkLoop_spec (cls : Class) (cid : Nat) (d y : String) :
    ∀ (sids : List Nat) (db : DB),
      ((bulkLoop cls cid d y db sids).2.1.length +
        (bulkLoop cls cid d y db sids).2.2.length = sids.length) ∧
      ((bulkLoop cls cid d y db sids).1.enrollments =
        db.enrollments ++ (bulkLoop cls cid d y db sids).2.1) ∧
      ((bulkLoop cls cid d y db sids).1.classes = db.classes) ∧
      (∀ e ∈ (bulkLoop cls cid d y db sids).2.1,
        e.status = EStatus.active ∧ e.classId = cid ∧ e.studentId ∈ sids) ∧
      (activeCount db.enrollments cid ≤ cls.maxStudents →
        activeCount (bulkLoop cls cid d y db sids).1.enrollments cid ≤ cls.maxStudents) := by
  intro sids
  induction sids with
  | nil => intro db; simp [bulkLoop]
  | cons sid rest ih =>
    intro db
    cases hfs : findStudent db sid with
    | none =>
      have h := ih db
      simp only [bulkLoop, hfs]
      refine ⟨?_, h.2.1, h.2.2.1, ?_, h.2.2.2.2⟩
      · have h1 := h.1
        simp only [List.length_cons]
        omega
      · intro e he
        have := h.2.2.2.1 e he
        exact ⟨this.1, this.2.1, List.mem_cons_of_mem _ this.2.2⟩
    | some student =>
      by_cases hdup : hasActive db.enrollments sid cid = true
      · have h := ih db
        simp only [bulkLoop, hfs, hdup, if_true]
        refine ⟨?_, h.2.1, h.2.2.1, ?_, h.2.2.2.2⟩
        · have h1 := h.1
          simp only [List.length_cons]
          omega
        · intro e he
          have := h.2.2.2.1 e he
          exact ⟨this.1, this.2.1, List.mem_cons_of_mem _ this.2.2⟩
      · rw [Bool.not_eq_true] at hdup
        by_cases hful : cls.maxStudents ≤ activeCount db.enrollments cid
        · have h := ih db
          simp only [bulkLoop, hfs, hdup, Bool.false_eq_true, if_false, hful, if_true]
          refine ⟨?_, h.2.1, h.2.2.1, ?_, h.2.2.2.2⟩
          · have h1 := h.1
            simp only [List.length_cons]
            omega
          · intro e he
            have := h.2.2.2.1 e he
            exact ⟨this.1, this.2.1, List.mem_cons_of_mem _ this.2.2⟩
        · by_cases hcl : tripleClash db.enrollments ⟨db.nextId, sid, cid, d, y, EStatus.active⟩ = true
          · have h := ih db
            simp only [bulkLoop, hfs, hdup, Bool.false_eq_true, if_false, hful, if_true, hcl]
            refine ⟨?_, h.2.1, h.2.2.1, ?_, h.2.2.2.2⟩
            · have h1 := h.1
              simp only [List.length_cons]
              omega
            · intro e he
              have := h.2.2.2.1 e he
              exact ⟨this.1, this.2.1, List.mem_cons_of_mem _ this.2.2⟩
          · rw [Bool.not_eq_true] at hcl
            have h := ih { db with
              enrollments := db.enrollments ++ [⟨db.nextId, sid, cid, d, y, EStatus.active⟩],
              nextId := db.nextId + 1 }
            simp only [bulkLoop, hfs, hdup, Bool.false_eq_true, if_false, hful, if_true, hcl]
            refine ⟨?_, ?_, h.2.2.1, ?_, ?_⟩
            · have h1 := h.1
              simp only [List.length_cons]
              omega
            · rw [h.2.1]
              simp
            · intro e he
              rcases List.mem_cons.mp he with rfl | hmem
              · exact ⟨rfl, rfl, List.mem_cons_self _ _⟩
              · have := h.2.2.2.1 e hmem
                exact ⟨this.1, this.2.1, List.mem_cons_of_mem _ this.2.2⟩
            · intro hle
              apply h.2.2.2.2
              show activeCount (db.enrollments ++ [_]) cid ≤ cls.maxStudents
              rw [activeCount_append, activeCount_active_singleton]
              omega

end Madara

namespace Madara

/-- C4: a bulk enrollment on an existing class processes students in list
order against the incrementally updated state: it returns `{created,
errors}` with exactly one entry per input student, appends the created rows
to the store without ever undoing earlier creations, never raises the active
count past `maxStudents` (when it started at or below it), and recomputes
`currentStudents` exactly once, after the whole batch — the result is the
single recompute applied to the loop's final state. -/
theorem bulkCreateEnrollments_spec (db : DB) (sids : List Nat) (cid : Nat)
    (d y : String) (cls : Class)
    (hcls : findClass db cid = some cls) (hne : sids ≠ []) :
    bulkCreateEnrollments db sids cid d y =
      (updateClassStudentCount (bulkLoop cls cid d y db sids).1 cid,
       .ok 200 ((bulkLoop cls cid d y db sids).2.1, (bulkLoop cls cid d y db sids).2.2)) ∧
    (bulkLoop cls cid d y db sids).2.1.length +
      (bulkLoop cls cid d y db sids).2.2.length = sids.length ∧
    (bulkCreateEnrollments db sids cid d y).1.enrollments =
      db.enrollments ++ (bulkLoop cls cid d y db sids).2.1 ∧
    (∀ e ∈ (bulkLoop cls cid d y db sids).2.1,
      e.status = EStatus.active ∧ e.classId = cid ∧ e.studentId ∈ sids) ∧
    (activeCount db.enrollments cid ≤ cls.maxStudents →
      activeCount (bulkCreateEnrollments db sids cid d y).1.enrollments cid ≤
        cls.maxStudents) ∧
    countConsistentFor (bulkCreateEnrollments db sids cid d y).1 cid := by
  have hloop := bulkLoop_spec cls cid d y sids db
  have hemp : sids.isEmpty = false := by
    cases sids with
    | nil => exact absurd rfl hne
    | cons a l => rfl
  have hred : bulkCreateEnrollments db sids cid d y =
      (updateClassStudentCount (bulkLoop cls cid d y db sids).1 cid,
       .ok 200 ((bulkLoop cls cid d y db sids).2.1, (bulkLoop cls cid d y db sids).2.2)) := by
    simp [bulkCreateEnrollments, hemp, hcls]
  refine ⟨hred, hloop.1, ?_, hloop.2.2.2.1, ?_, ?_⟩
  · rw [hred]
    simp only [updateCount_enrollments]
    exact hloop.2.1
  · intro hle
    rw [hred]
    simp only [updateCount_enrollments]
    exact hloop.2.2.2.2 hle
  · rw [hred]
    exact countConsistentFor_updateCount _ _

end Madara

namespace Madara

/-- Witness for C4, the spec's example: one free seat, batch `[5, 6, 8]`
with student 6 already enrolled: exactly one creation (student 5, processed
first), two per-student errors (duplicate then capacity), final
`currentStudents` raised by exactly one, and the created row appended. -/
theorem bulkCreateEnrollments_spec_witness :
    (bulkCreateEnrollments dbC4 [5, 6, 8] 2 "2024-05-01" "2024").2 =
      .ok 200 ([⟨100, 5, 2, "2024-05-01", "2024", EStatus.active⟩],
        ["Student b is already enrolled in this class",
         "Class is full. Cannot enroll student c"]) ∧
    (findClass (bulkCreateEnrollments dbC4 [5, 6, 8] 2 "2024-05-01" "2024").1 2).map
      Class.currentStudents = some 2 ∧
    countConsistentFor (bulkCreateEnrollments dbC4 [5, 6, 8] 2 "2024-05-01" "2024").1 2 ∧
    (bulkCreateEnrollments dbC4 [5, 6, 8] 2 "2024-05-01" "2024").1.enrollments =
      dbC4.enrollments ++ (bulkLoop clsC4 2 "2024-05-01" "2024" dbC4 [5, 6, 8]).2.1 :=
  ⟨by decide, by decide,
   (bulkCreateEnrollments_spec dbC4 [5, 6, 8] 2 "2024-05-01" "2024" clsC4
      (by decide) (by decide)).2.2.2.2.2,
   (bulkCreateEnrollments_spec dbC4 [5, 6, 8] 2 "2024-05-01" "2024" clsC4
      (by decide) (by decide)).2.2.1⟩

end Madara

namespace Madara

theorem atMostOne_of_uniqueTriples (rows : List Enrollment)
    (h : UniqueTriples rows) : AtMostOneActive rows := by
  intro sid cid
  have hsub : (rows.filter fun e =>
      e.studentId == sid && e.classId == cid && e.status == EStatus.active).Pairwise
      (fun a b => ¬(a.studentId = b.studentId ∧ a.classId = b.classId ∧ a.status = b.status)) :=
    h.sublist (List.filter_sublist _)
  rcases hfil : rows.filter fun e =>
      e.studentId == sid && e.classId == cid && e.status == EStatus.active with _ | ⟨x, _ | ⟨z, l⟩⟩
  · rw [hfil]
    simp
  · rw [hfil]
    simp
  · exfalso
    rw [hfil] at hsub
    have hR := (List.pairwise_cons.mp hsub).1 z (List.mem_cons_self _ _)
    have hx : x ∈ rows.filter fun e =>
        e.studentId == sid && e.classId == cid && e.status == EStatus.active := by
      rw [hfil]; exact List.mem_cons_self _ _
    have hz : z ∈ rows.filter fun e =>
        e.studentId == sid && e.classId == cid && e.status == EStatus.active := by
      rw [hfil]; exact List.mem_cons_of_mem _ (List.mem_cons_self _ _)
    have hxp := List.of_mem_filter hx
    have hzp := List.of_mem_filter hz
    simp only [Bool.and_eq_true, beq_iff_eq] at hxp hzp
    exact hR ⟨hxp.1.1.trans hzp.1.1.symm, hxp.1.2.trans hzp.1.2.symm, hxp.2.trans hzp.2.symm⟩

theorem inv_insert (db : DB) (e : Enrollment) (h : Inv db) (he : e.id = db.nextId)
    (hcl : tripleClash db.enrollments e = false) :
    Inv { db with enrollments := db.enrollments ++ [e], nextId := db.nextId + 1 } := by
  obtain ⟨⟨hpw, hlt⟩, hU⟩ := h
  have hclP := (tripleClash_eq_false_iff db.enrollments e).mp hcl
  refine ⟨⟨?_, ?_⟩, ?_⟩
  · rw [List.pairwise_append]
    refine ⟨hpw, List.pairwise_singleton _ _, ?_⟩
    intro a ha b hb
    rw [List.mem_singleton] at hb
    subst hb
    have h1 := hlt a ha
    omega
  · intro r hr
    rw [List.mem_append] at hr
    show r.id < db.nextId + 1
    rcases hr with hr | hr
    · have h1 := hlt r hr
      omega
    · rw [List.mem_singleton] at hr
      subst hr
      omega
  · simp only [UniqueTriples] at hU ⊢
    rw [List.pairwise_append]
    refine ⟨hU, List.pairwise_singleton _ _, ?_⟩
    intro a ha b hb
    rw [List.mem_singleton] at hb
    subst hb
    have haid : a.id ≠ b.id := by
      have h1 := hlt a ha
      omega
    exact hclP a ha haid

theorem inv_replace (db : DB) (eid : Nat) (e' : Enrollment) (h : Inv db) (he : e'.id = eid)
    (hcl : tripleClash db.enrollments e' = false) :
    Inv { db with
      enrollments := db.enrollments.map fun r => if r.id == eid then e' else r } := by
  obtain ⟨⟨hpw, hlt⟩, hU⟩ := h
  have hclP := (tripleClash_eq_false_iff db.enrollments e').mp hcl
  have hid : ∀ r : Enrollment, ((if r.id == eid then e' else r)).id = r.id := by
    intro r
    by_cases hr : (r.id == eid) = true
    · rw [if_pos hr, he]
      exact (beq_iff_eq.mp hr).symm
    · rw [if_neg (by simpa using (Bool.not_eq_true _).mp hr)]
  refine ⟨⟨?_, ?_⟩, ?_⟩
  · rw [List.pairwise_map]
    exact hpw.imp_of_mem (fun ha hb hne => by rw [hid, hid]; exact hne)
  · intro r hr
    rw [List.mem_map] at hr
    obtain ⟨r0, hr0, rfl⟩ := hr
    have h0 := hlt r0 hr0
    have h1 := hid r0
    show (if r0.id == eid then e' else r0).id < db.nextId
    omega
  · simp only [UniqueTriples] at hU ⊢
    rw [List.pairwise_map]
    have hcomb := hpw.and hU
    refine hcomb.imp_of_mem ?_
    intro a b ha hb hab
    by_cases haid : (a.id == eid) = true
    · have haeq : a.id = eid := beq_iff_eq.mp haid
      have hbid : (b.id == eid) = false := by
        have hbne : b.id ≠ eid := fun hcon => hab.1 (haeq.trans hcon.symm)
        simpa using hbne
      rw [if_pos haid, if_neg (by simp [hbid])]
      intro htr
      have hbne : b.id ≠ e'.id := by rw [he]; simpa using hbid
      exact hclP b hb hbne ⟨htr.1.symm, htr.2.1.symm, htr.2.2.symm⟩
    · by_cases hbid : (b.id == eid) = true
      · rw [if_neg (by simpa using (Bool.not_eq_true _).mp haid), if_pos hbid]
        intro htr
        have hane : a.id ≠ e'.id := by rw [he]; simpa using (Bool.not_eq_true _).mp haid
        exact hclP a ha hane htr
      · rw [if_neg (by simpa using (Bool.not_eq_true _).mp haid),
          if_neg (by simpa using (Bool.not_eq_true _).mp hbid)]
        exact hab.2

theorem inv_filter (db : DB) (p : Enrollment → Bool) (h : Inv db) :
    Inv { db with enrollments := db.enrollments.filter p } := by
  obtain ⟨⟨hpw, hlt⟩, hU⟩ := h
  exact ⟨⟨hpw.sublist (List.filter_sublist _),
    fun e he => hlt e (List.mem_of_mem_filter he)⟩,
    hU.sublist (List.filter_sublist _)⟩

theorem inv_updateCount (db : DB) (cid : Nat) (h : Inv db) :
    Inv (updateClassStudentCount db cid) := h

end Madara

namespace Madara

theorem inv_createEnrollment (db : DB) (sid cid : Nat) (d y : String) (h : Inv db) :
    Inv (createEnrollment db sid cid d y).1 := by
  cases hfs : findStudent db sid with
  | none => simp only [createEnrollment, hfs]; exact h
  | some st =>
    cases hfc : findClass db cid with
    | none => simp only [createEnrollment, hfs, hfc]; exact h
    | some cls =>
      by_cases h1 : hasActive db.enrollments sid cid = true
      · simp only [createEnrollment, hfs, hfc, h1, if_true]; exact h
      · rw [Bool.not_eq_true] at h1
        by_cases h2 : cls.maxStudents ≤ activeCount db.enrollments cid
        · simp only [createEnrollment, hfs, hfc, h1, Bool.false_eq_true, if_false, h2, if_true]
          exact h
        · by_cases h3 : tripleClash db.enrollments ⟨db.nextId, sid, cid, d, y, EStatus.active⟩ = true
          · simp only [createEnrollment, hfs, hfc, h1, Bool.false_eq_true, if_false, h2,
              if_true, h3]
            exact h
          · rw [Bool.not_eq_true] at h3
            simp only [createEnrollment, hfs, hfc, h1, Bool.false_eq_true, if_false, h2,
              if_true, h3]
            exact inv_insert db _ h rfl h3

theorem inv_updateEnrollment (db : DB) (eid : Nat) (st : EStatus) (h : Inv db) :
    Inv (updateEnrollment db eid st).1 := by
  cases hfe : findEnrollment db eid with
  | none => simp only [updateEnrollment, hfe]; exact h
  | some e =>
    have hfe' : db.enrollments.find? (fun r => r.id == eid) = some e := hfe
    have heid : e.id = eid := by
      simpa using List.find?_some hfe'
    by_cases hcl : tripleClash db.enrollments { e with status := st } = true
    · simp only [updateEnrollment, hfe, hcl, if_true]; exact h
    · rw [Bool.not_eq_true] at hcl
      simp only [updateEnrollment, hfe, hcl, Bool.false_eq_true, if_false]
      exact inv_replace db eid _ h heid hcl

theorem inv_deleteEnrollment (db : DB) (eid : Nat) (h : Inv db) :
    Inv (deleteEnrollment db eid).1 := by
  cases hfe : findEnrollment db eid with
  | none => simp only [deleteEnrollment, hfe]; exact h
  | some e =>
    simp only [deleteEnrollment, hfe]
    exact inv_filter db _ h

theorem inv_bulkLoop (cls : Class) (cid : Nat) (d y : String) :
    ∀ (sids : List Nat) (db : DB), Inv db → Inv (bulkLoop cls cid d y db sids).1 := by
  intro sids
  induction sids with
  | nil => intro db h; simpa [bulkLoop] using h
  | cons sid rest ih =>
    intro db h
    cases hfs : findStudent db sid with
    | none => simp only [bulkLoop, hfs]; exact ih db h
    | some student =>
      by_cases h1 : hasActive db.enrollments sid cid = true
      · simp only [bulkLoop, hfs, h1, if_true]; exact ih db h
      · rw [Bool.not_eq_true] at h1
        by_cases h2 : cls.maxStudents ≤ activeCount db.enrollments cid
        · simp only [bulkLoop, hfs, h1, Bool.false_eq_true, if_false, h2, if_true]
          exact ih db h
        · by_cases h3 : tripleClash db.enrollments ⟨db.nextId, sid, cid, d, y, EStatus.active⟩ = true
          · simp only [bulkLoop, hfs, h1, Bool.false_eq_true, if_false, h2, if_true, h3]
            exact ih db h
          · rw [Bool.not_eq_true] at h3
            simp only [bulkLoop, hfs, h1, Bool.false_eq_true, if_false, h2, if_true, h3]
            exact ih _ (inv_insert db _ h rfl h3)

theorem inv_bulkCreateEnrollments (db : DB) (sids : List Nat) (cid : Nat) (d y : String)
    (h : Inv db) : Inv (bulkCreateEnrollments db sids cid d y).1 := by
  by_cases hemp : sids.isEmpty = true
  · simp only [bulkCreateEnrollments, hemp, if_true]; exact h
  · rw [Bool.not_eq_true] at hemp
    cases hfc : findClass db cid with
    | none => simp only [bulkCreateEnrollments, hemp, Bool.false_eq_true, if_false, hfc]; exact h
    | some cls =>
      simp only [bulkCreateEnrollments, hemp, Bool.false_eq_true, if_false, hfc]
      exact inv_bulkLoop cls cid d y sids db h

theorem inv_transferStudent (db : DB) (eid newCid : Nat) (today : String) (h : Inv db) :
    Inv (transferStudent db eid newCid today).1 := by
  by_cases hz : (newCid == 0) = true
  · simp only [transferStudent, hz, if_true]; exact h
  · rw [Bool.not_eq_true] at hz
    cases hfe : findEnrollment db eid with
    | none => simp only [transferStudent, hz, Bool.false_eq_true, if_false, hfe]; exact h
    | some old =>
      have hfe' : db.enrollments.find? (fun r => r.id == eid) = some old := hfe
      have heid : old.id = eid := by
        simpa using List.find?_some hfe'
      cases hfc : findClass db newCid with
      | none =>
        simp only [transferStudent, hz, Bool.false_eq_true, if_false, hfe, hfc]; exact h
      | some newClass =>
        by_cases h1 : hasActive db.enrollments old.studentId newCid = true
        · simp only [transferStudent, hz, Bool.false_eq_true, if_false, hfe, hfc, h1, if_true]
          exact h
        · rw [Bool.not_eq_true] at h1
          by_cases h2 : newClass.maxStudents ≤ activeCount db.enrollments newCid
          · simp only [transferStudent, hz, Bool.false_eq_true, if_false, hfe, hfc, h1,
              h2, if_true]
            exact h
          · by_cases h3 : tripleClash db.enrollments { old with status := EStatus.transferred } = true
            · simp only [transferStudent, hz, Bool.false_eq_true, if_false, hfe, hfc, h1,
                h2, h3, if_true]
              exact h
            · rw [Bool.not_eq_true] at h3
              have hrep := inv_replace db eid { old with status := EStatus.transferred } h heid h3
              by_cases h4 : tripleClash
                  (db.enrollments.map fun r =>
                    if r.id == eid then { old with status := EStatus.transferred } else r)
                  ⟨db.nextId, old.studentId, newCid, today, old.academicYear, EStatus.active⟩ = true
              · simp only [transferStudent, hz, Bool.false_eq_true, if_false, hfe, hfc, h1,
                  h2, h3, h4, if_true]
                exact hrep
              · rw [Bool.not_eq_true] at h4
                simp only [transferStudent, hz, Bool.false_eq_true, if_false, hfe, hfc, h1,
                  h2, h3, h4, if_true]
                exact inv_insert _ _ hrep rfl h4

theorem inv_cascadeDelete : ∀ (l : List Enrollment) (db : DB), Inv db →
    Inv (cascadeDelete db l) := by
  intro l
  induction l with
  | nil => intro db h; exact h
  | cons e rest ih =>
    intro db h
    exact ih _ (inv_filter db _ h)

theorem inv_deleteStudent (db : DB) (sid : Nat) (h : Inv db) :
    Inv (deleteStudent db sid).1 := by
  cases hfs : findStudent db sid with
  | none => simp only [deleteStudent, hfs]; exact h
  | some st =>
    simp only [deleteStudent, hfs]
    exact inv_cascadeDelete _ db h

theorem reachable_inv (db : DB) (h : Reachable db) : Inv db := by
  induction h with
  | init db he =>
    refine ⟨⟨?_, ?_⟩, ?_⟩ <;> simp [he, UniqueTriples]
  | create db sid cid d y _ ih => exact inv_createEnrollment db sid cid d y ih
  | bulk db sids cid d y _ ih => exact inv_bulkCreateEnrollments db sids cid d y ih
  | updateStatus db eid st _ ih => exact inv_updateEnrollment db eid st ih
  | transfer db eid cid today _ ih => exact inv_transferStudent db eid cid today ih
  | remove db eid _ ih => exact inv_deleteEnrollment db eid ih
  | removeStudent db sid _ ih => exact inv_deleteStudent db sid ih

/-- C9: in every state reachable through the enrollment operations (create,
bulk create, status update, transfer, delete, student-cascade delete), the
`(studentId, classId, status)` triples are unique — the storage index
invariant maintained by the pre-checks and the unique-index guard — and
consequently at most one active enrollment exists per (studentId, classId)
pair. -/
theorem at_most_one_active_invariant (db : DB) (h : Reachable db) :
    UniqueTriples db.enrollments ∧ AtMostOneActive db.enrollments :=
  ⟨(reachable_inv db h).2, atMostOne_of_uniqueTriples _ (reachable_inv db h).2⟩

/-- Witness for C9: the invariant at a concrete reached state (an
enrollment creation on top of an enrollment-free store). -/
theorem at_most_one_active_invariant_witness :
    UniqueTriples (createEnrollment dbC1 5 2 "2024-02-01" "2024").1.enrollments ∧
    AtMostOneActive (createEnrollment dbC1 5 2 "2024-02-01" "2024").1.enrollments :=
  at_most_one_active_invariant _
    (Reachable.create dbC1 5 2 "2024-02-01" "2024" (Reachable.init dbC1 rfl))

end Madara

namespace Madara

theorem activeCount_filter_ne (rows : List Enrollment) (cid : Nat) (q : Enrollment → Bool)
    (hq : ∀ r ∈ rows, q r = false → r.classId ≠ cid) :
    activeCount (rows.filter q) cid = activeCount rows cid := by
  induction rows with
  | nil => rfl
  | cons r rest ih =>
    have ih' := ih (fun a ha hqa => hq a (List.mem_cons_of_mem _ ha) hqa)
    by_cases hqr : q r = true
    · rw [List.filter_cons_of_pos hqr]
      unfold activeCount
      rw [List.filter_cons, List.filter_cons]
      split
      · simp only [List.length_cons]
        exact congrArg Nat.succ ih'
      · exact ih'
    · rw [Bool.not_eq_true] at hqr
      rw [List.filter_cons_of_neg (by simp [hqr])]
      have hne := hq r (List.mem_cons_self _ _) hqr
      unfold activeCount
      rw [List.filter_cons]
      have : (r.classId == cid && r.status == EStatus.active) = false := by
        simp [hne]
      rw [this]
      simp only [Bool.false_eq_true, if_false]
      exact ih'

theorem activeCount_eq_zero (rows : List Enrollment) (cid : Nat)
    (h : ∀ e ∈ rows, e.classId ≠ cid) : activeCount rows cid = 0 := by
  unfold activeCount
  rw [List.filter_eq_nil_iff.mpr]
  · rfl
  · intro a ha
    simp [h a ha]

theorem eq_of_mem_pairwise_ids (rows : List Enrollment)
    (hpw : rows.Pairwise fun a b => a.id ≠ b.id)
    (e r : Enrollment) (he : e ∈ rows) (hr : r ∈ rows) (hid : r.id = e.id) : r = e := by
  induction rows with
  | nil => cases he
  | cons x rest ih =>
    rw [List.pairwise_cons] at hpw
    rcases List.mem_cons.mp he with rfl | he'
    · rcases List.mem_cons.mp hr with rfl | hr'
      · rfl
      · exact absurd hid.symm (hpw.1 r hr')
    · rcases List.mem_cons.mp hr with rfl | hr'
      · exact absurd hid (hpw.1 e he')
      · exact ih hpw.2 he' hr'

theorem cascade_frame (l : List Enrollment) : ∀ (db : DB) (cid : Nat),
    countConsistentFor db cid →
    (∀ e ∈ l, e.classId ≠ cid) →
    (∀ e ∈ l, ∀ r ∈ db.enrollments, r.id = e.id → r.classId = e.classId) →
    countConsistentFor (cascadeDelete db l) cid := by
  induction l with
  | nil => intro db cid h _ _; exact h
  | cons e rest ih =>
    intro db cid h hne hrow
    have hnecid := hne e (List.mem_cons_self _ _)
    have hcount : activeCount (db.enrollments.filter fun r => r.id != e.id) cid =
        activeCount db.enrollments cid := by
      apply activeCount_filter_ne
      intro r hr hq
      have : r.id = e.id := by simpa using hq
      rw [hrow e (List.mem_cons_self _ _) r hr this]
      exact hnecid
    have hF : countConsistentFor
        { db with enrollments := db.enrollments.filter fun r => r.id != e.id } cid := by
      intro c hc hcid
      rw [show ({ db with enrollments := db.enrollments.filter fun r => r.id != e.id} : DB).enrollments
        = db.enrollments.filter fun r => r.id != e.id from rfl, hcount]
      exact h c hc hcid
    apply ih
    · exact countConsistentFor_updateCount_preserve _ _ _ hF
    · intro a ha
      exact hne a (List.mem_cons_of_mem _ ha)
    · intro a ha r hr hid
      rw [updateCount_enrollments] at hr
      exact hrow a (List.mem_cons_of_mem _ ha) r (List.mem_of_mem_filter hr) hid

theorem cascade_touched (l : List Enrollment) : ∀ (db : DB) (cid : Nat),
    (∀ e ∈ l, ∀ r ∈ db.enrollments, r.id = e.id → r.classId = e.classId) →
    cid ∈ l.map (fun e => e.classId) →
    countConsistentFor (cascadeDelete db l) cid := by
  induction l with
  | nil => intro db cid _ hmem; cases hmem
  | cons e rest ih =>
    intro db cid hrow hmem
    by_cases hr : cid ∈ rest.map (fun e => e.classId)
    · apply ih
      · intro a ha r hrr hid
        rw [updateCount_enrollments] at hrr
        exact hrow a (List.mem_cons_of_mem _ ha) r (List.mem_of_mem_filter hrr) hid
      · exact hr
    · have hcid : cid = e.classId := by
        rw [List.map_cons, List.mem_cons] at hmem
        rcases hmem with h | h
        · exact h
        · exact absurd h hr
      subst hcid
      have hstep : cascadeDelete db (e :: rest) =
          cascadeDelete (updateClassStudentCount
            { db with enrollments := db.enrollments.filter fun r => r.id != e.id }
            e.classId) rest := rfl
      rw [hstep]
      apply cascade_frame rest
      · exact countConsistentFor_updateCount _ _
      · intro a ha hacid
        exact hr (by rw [← hacid]; exact List.mem_map_of_mem _ ha)
      · intro a ha r hrr hid
        rw [updateCount_enrollments] at hrr
        exact hrow a (List.mem_cons_of_mem _ ha) r (List.mem_of_mem_filter hrr) hid

theorem insertSchedules_enrollments (items : List ScheduleItem) : ∀ (db : DB) (cid : Nat),
    (insertSchedules db cid items).enrollments = db.enrollments ∧
    (insertSchedules db cid items).classes = db.classes := by
  induction items with
  | nil => intro db cid; exact ⟨rfl, rfl⟩
  | cons it rest ih =>
    intro db cid
    exact ih _ cid

end Madara

namespace Madara

theorem countConsistentFor_insertSchedules (items : List ScheduleItem) (db : DB)
    (cid2 cid : Nat) (h : countConsistentFor db cid) :
    countConsistentFor (insertSchedules db cid2 items) cid := by
  intro c hc hcid
  rw [(insertSchedules_enrollments items db cid2).1]
  exact h c ((insertSchedules_enrollments items db cid2).2 ▸ hc) hcid

theorem countConsistentFor_new_class (db : DB) (newClass : Class)
    (h0 : newClass.currentStudents = 0)
    (hid : ∀ e ∈ db.enrollments, e.classId ≠ newClass.id)
    (hcl : ∀ c ∈ db.classes, c.id ≠ newClass.id) :
    countConsistentFor
      { db with classes := db.classes ++ [newClass], nextId := db.nextId + 1 }
      newClass.id := by
  intro c hc hcid
  rw [List.mem_append] at hc
  rcases hc with hc | hc
  · exact absurd hcid (hcl c hc)
  · rw [List.mem_singleton] at hc
    subst hc
    rw [h0]
    exact (activeCount_eq_zero db.enrollments c.id
      (fun e he => hcid ▸ hid e he)).symm

end Madara

namespace Madara

theorem updateClass_classes_shape (db : DB) (id : Nat) (u : UpdateClassRequest) :
    (updateClass db id u).1.classes = db.classes ∨
    ∃ existing, findClass db id = some existing ∧
      (updateClass db id u).1.classes =
        db.classes.map fun c => if c.id == id then mergeClass existing u else c := by
  unfold updateClass
  dsimp only
  repeat' split
  all_goals try (left; rfl)
  all_goals right
  all_goals refine ⟨_, by assumption, ?_⟩
  all_goals first
    | rfl
    | (rw [(insertSchedules_enrollments _ _ _).2]; try rfl)

/-- C2: after every enrollment-mutating operation that succeeds, each
touched class's stored `currentStudents` equals the count of its active
enrollment rows (the recompute routine re-established it); rejected
requests leave the store untouched; the student-cascade delete
re-establishes it for every class of every removed enrollment; a created
class starts with the consistent count 0; and a class update never writes
`currentStudents` — no code path increments or decrements it by hand. -/
theorem currentStudents_recompute_spec :
    (∀ (db : DB) (sid cid : Nat) (d y : String),
      (∀ code e, (createEnrollment db sid cid d y).2 = .ok code e →
        countConsistentFor (createEnrollment db sid cid d y).1 cid) ∧
      (∀ code msg, (createEnrollment db sid cid d y).2 = .err code msg →
        (createEnrollment db sid cid d y).1 = db)) ∧
    (∀ (db : DB) (eid : Nat) (st : EStatus) (e0 : Enrollment),
      findEnrollment db eid = some e0 →
      ∀ code e, (updateEnrollment db eid st).2 = .ok code e →
        countConsistentFor (updateEnrollment db eid st).1 e0.classId) ∧
    (∀ (db : DB) (eid : Nat) (e0 : Enrollment),
      findEnrollment db eid = some e0 →
      ∀ code u, (deleteEnrollment db eid).2 = .ok code u →
        countConsistentFor (deleteEnrollment db eid).1 e0.classId) ∧
    (∀ (db : DB) (eid newCid : Nat) (today : String) (e0 : Enrollment),
      findEnrollment db eid = some e0 →
      ∀ code e, (transferStudent db eid newCid today).2 = .ok code e →
        countConsistentFor (transferStudent db eid newCid today).1 e0.classId ∧
        countConsistentFor (transferStudent db eid newCid today).1 newCid) ∧
    (∀ (db : DB) (sids : List Nat) (cid : Nat) (d y : String),
      ∀ code res, (bulkCreateEnrollments db sids cid d y).2 = .ok code res →
        countConsistentFor (bulkCreateEnrollments db sids cid d y).1 cid) ∧
    (∀ (db : DB) (sid : Nat), IdsOk db →
      ∀ code u, (deleteStudent db sid).2 = .ok code u →
      ∀ cid ∈ (db.enrollments.filter fun e => e.studentId == sid).map (fun e => e.classId),
        countConsistentFor (deleteStudent db sid).1 cid) ∧
    (∀ (db : DB) (data : CreateClassRequest),
      (∀ c ∈ db.classes, c.id < db.nextId) →
      (∀ e ∈ db.enrollments, e.classId < db.nextId) →
      ∀ code c, (createClass db data).2 = .ok code c →
        countConsistentFor (createClass db data).1 c.id) ∧
    (∀ (db : DB) (id : Nat) (u : UpdateClassRequest),
      ∀ c' ∈ (updateClass db id u).1.classes, ∃ c ∈ db.classes,
        c'.id = c.id ∧ c'.currentStudents = c.currentStudents) := by
  refine ⟨?_, ?_, ?_, ?_, ?_, ?_, ?_, ?_⟩
  · intro db sid cid d y
    constructor
    · intro code e h
      revert h
      unfold createEnrollment
      dsimp only
      repeat' split
      all_goals intro h
      all_goals first
        | exact fun _ => countConsistentFor_updateCount _ _
        | exact countConsistentFor_updateCount _ _
        | simp at h
    · intro code msg h
      revert h
      unfold createEnrollment
      dsimp only
      repeat' split
      all_goals intro h
      all_goals first | rfl | simp at h
  · intro db eid st e0 hfind code e h
    revert h
    unfold updateEnrollment
    split
    · intro h; simp at h
    · rename_i e1 heq
      rw [hfind] at heq
      injection heq with heq'
      subst heq'
      dsimp only
      split
      · intro h; simp at h
      · intro _
        exact countConsistentFor_updateCount _ _
  · intro db eid e0 hfind code u h
    revert h
    unfold deleteEnrollment
    split
    · intro h; simp at h
    · rename_i e1 heq
      rw [hfind] at heq
      injection heq with heq'
      subst heq'
      intro _
      exact countConsistentFor_updateCount _ _
  · intro db eid newCid today e0 hfind code e h
    revert h
    unfold transferStudent
    split
    · intro h; simp at h
    · split
      · intro h; simp at h
      · rename_i e1 heq
        rw [hfind] at heq
        injection heq with heq'
        subst heq'
        dsimp only
        repeat' split
        all_goals intro h
        all_goals try simp at h
        exact ⟨countConsistentFor_updateCount_preserve _ _ _
          (countConsistentFor_updateCount _ _),
          countConsistentFor_updateCount _ _⟩
  · intro db sids cid d y code res h
    revert h
    unfold bulkCreateEnrollments
    dsimp only
    repeat' split
    all_goals intro h
    all_goals try simp at h
    exact countConsistentFor_updateCount _ _
  · intro db sid hids code u h cid hcid
    revert h
    unfold deleteStudent
    split
    · intro h; simp at h
    · intro _
      have htouch : countConsistentFor
          (cascadeDelete db (db.enrollments.filter fun e => e.studentId == sid)) cid := by
        apply cascade_touched
        · intro e he r hr hid
          have heq := eq_of_mem_pairwise_ids db.enrollments hids.1 e r
            (List.mem_of_mem_filter he) hr hid
          rw [heq]
        · exact hcid
      exact htouch
  · intro db data hcls hbound code c h
    revert h
    unfold createClass
    dsimp only
    repeat' split
    all_goals intro h
    all_goals try simp at h
    all_goals obtain ⟨hcode, hc⟩ := h
    all_goals subst hc
    · apply countConsistentFor_insertSchedules
      apply countConsistentFor_new_class _ _ rfl
      · intro e he hne
        exact absurd hne (Nat.ne_of_lt (hbound e he))
      · intro c0 hc0 hne
        exact absurd hne (Nat.ne_of_lt (hcls c0 hc0))
    · apply countConsistentFor_new_class _ _ rfl
      · intro e he hne
        exact absurd hne (Nat.ne_of_lt (hbound e he))
      · intro c0 hc0 hne
        exact absurd hne (Nat.ne_of_lt (hcls c0 hc0))
  · intro db id u c' hc'
    rcases updateClass_classes_shape db id u with hsh | ⟨existing, heq, hsh⟩
    · rw [hsh] at hc'
      exact ⟨c', hc', rfl, rfl⟩
    · rw [hsh, List.mem_map] at hc'
      obtain ⟨c0, hc0, rfl⟩ := hc'
      by_cases h0 : (c0.id == id) = true
      · rw [if_pos h0]
        have heq' : db.classes.find? (fun c => c.id == id) = some existing := heq
        exact ⟨existing, List.mem_of_find?_eq_some heq', rfl, rfl⟩
      · rw [if_neg (by simpa using (Bool.not_eq_true _).mp h0)]
        exact ⟨c0, hc0, rfl, rfl⟩

end Madara

namespace Madara

/-- Witness for C2: the recompute consistency at concrete runs of each
operation — create, status update, delete, transfer, bulk create,
student-cascade delete, class creation — plus the no-other-writer fact for
a concrete class update. -/
theorem currentStudents_recompute_spec_witness :
    countConsistentFor (createEnrollment dbC1 5 2 "2024-02-01" "2024").1 2 ∧
    countConsistentFor (updateEnrollment dbC1dup 50 EStatus.inactive).1 2 ∧
    countConsistentFor (deleteEnrollment dbC1dup 50).1 2 ∧
    countConsistentFor (transferStudent dbC3 50 3 "2024-03-01").1 2 ∧
    countConsistentFor (bulkCreateEnrollments dbC4 [5, 6, 8] 2 "2024-05-01" "2024").1 2 ∧
    countConsistentFor (deleteStudent dbC1dup 5).1 2 ∧
    countConsistentFor (createClass dbC1 ⟨"New", 1, none, [7], none, 10, "2024", none⟩).1 100 ∧
    (∀ c' ∈ (updateClass dbC1 2 ⟨none, none, none, none, none, some 50, none, none⟩).1.classes,
      ∃ c ∈ dbC1.classes, c'.id = c.id ∧ c'.currentStudents = c.currentStudents) :=
  ⟨(currentStudents_recompute_spec.1 dbC1 5 2 "2024-02-01" "2024").1 201
      ⟨100, 5, 2, "2024-02-01", "2024", EStatus.active⟩ (by decide),
   currentStudents_recompute_spec.2.1 dbC1dup 50 EStatus.inactive
      ⟨50, 5, 2, "2024-01-01", "2024", EStatus.active⟩ (by decide) 200
      ⟨50, 5, 2, "2024-01-01", "2024", EStatus.inactive⟩ (by decide),
   currentStudents_recompute_spec.2.2.1 dbC1dup 50
      ⟨50, 5, 2, "2024-01-01", "2024", EStatus.active⟩ (by decide) 200 () (by decide),
   (currentStudents_recompute_spec.2.2.2.1 dbC3 50 3 "2024-03-01" oldEnr (by decide) 200
      ⟨100, 5, 3, "2024-03-01", "2024", EStatus.active⟩ (by decide)).1,
   currentStudents_recompute_spec.2.2.2.2.1 dbC4 [5, 6, 8] 2 "2024-05-01" "2024" 200
      ([⟨100, 5, 2, "2024-05-01", "2024", EStatus.active⟩],
       ["Student b is already enrolled in this class",
        "Class is full. Cannot enroll student c"]) (by decide),
   currentStudents_recompute_spec.2.2.2.2.2.1 dbC1dup 5
      (by
        refine ⟨?_, ?_⟩
        · show List.Pairwise _ [(⟨50, 5, 2, "2024-01-01", "2024", EStatus.active⟩ : Enrollment)]
          exact List.pairwise_singleton _ _
        · intro e he
          have he' : e ∈ [(⟨50, 5, 2, "2024-01-01", "2024", EStatus.active⟩ : Enrollment)] := he
          rw [List.mem_singleton] at he'
          subst he'
          show 50 < 100
          decide)
      200 () (by decide) 2 (by decide),
   currentStudents_recompute_spec.2.2.2.2.2.2.1 dbC1
      ⟨"New", 1, none, [7], none, 10, "2024", none⟩ (by decide) (by decide) 201
      ⟨100, "New", 1, none, [7], none, 10, 0, "2024"⟩ (by decide),
   currentStudents_recompute_spec.2.2.2.2.2.2.2 dbC1 2
      ⟨none, none, none, none, none, some 50, none, none⟩⟩

end Madara

namespace Madara

theorem validateScheduleItems_some_of_bad (sids : List Nat) :
    ∀ items : List ScheduleItem,
    (∃ it ∈ items, validateScheduleTime it.startTime it.endTime = false ∨
      sids.contains it.subjectId = false) →
    validateScheduleItems sids items ≠ none := by
  intro items
  induction items with
  | nil => rintro ⟨it, hmem, _⟩; cases hmem
  | cons it rest ih =>
    rintro ⟨w, hw, hbad⟩
    unfold validateScheduleItems
    by_cases ht : validateScheduleTime it.startTime it.endTime = true
    · rw [if_pos ht]
      by_cases hs : sids.contains it.subjectId = true
      · rw [if_pos hs]
        apply ih
        rcases List.mem_cons.mp hw with rfl | hw'
        · rcases hbad with h | h
          · rw [ht] at h; cases h
          · rw [hs] at h; cases h
        · exact ⟨w, hw', hbad⟩
      · rw [if_neg hs]
        simp
    · rw [if_neg ht]
      simp

theorem insertSchedules_mem_mono (items : List ScheduleItem) :
    ∀ (db : DB) (cid : Nat) (s : ClassSchedule), s ∈ db.schedules →
      s ∈ (insertSchedules db cid items).schedules := by
  induction items with
  | nil => intro db cid s hs; exact hs
  | cons it rest ih =>
    intro db cid s hs
    exact ih _ cid s (by
      show s ∈ db.schedules ++ [_]
      exact List.mem_append_left _ hs)

theorem insertSchedules_mem (items : List ScheduleItem) :
    ∀ (db : DB) (cid : Nat) (it : ScheduleItem), it ∈ items →
      ∃ s ∈ (insertSchedules db cid items).schedules,
        s.classId = cid ∧ s.subjectId = it.subjectId ∧
        s.startTime = it.startTime ∧ s.endTime = it.endTime ∧ s.room = it.room := by
  induction items with
  | nil => intro db cid it hmem; cases hmem
  | cons it0 rest ih =>
    intro db cid it hmem
    rcases List.mem_cons.mp hmem with rfl | hmem'
    · refine ⟨⟨db.nextId, cid, it.subjectId, it.dayOfWeek, it.startTime, it.endTime, it.room⟩,
        ?_, rfl, rfl, rfl, rfl, rfl⟩
      exact insertSchedules_mem_mono rest _ cid _
        (List.mem_append_right _ (List.mem_singleton_self _))
    · exact ih _ cid it hmem'

/-- C7 (amended): on class creation every schedule entry is validated —
a backwards time range or a subject outside the class's subject set makes
the whole request fail with HTTP 400 and leaves the store untouched; the
class-update path performs no such validation: a schedule-only update on an
existing class always succeeds and persists every submitted entry verbatim,
validated or not. -/
theorem schedule_validation_create_only :
    (∀ (db : DB) (data : CreateClassRequest) (items : List ScheduleItem),
      data.schedule = some items →
      (∃ it ∈ items, validateScheduleTime it.startTime it.endTime = false ∨
        data.subjectIds.contains it.subjectId = false) →
      ∃ msg, createClass db data = (db, .err 400 msg)) ∧
    (∀ (db : DB) (id : Nat) (items : List ScheduleItem) (existing : Class),
      findClass db id = some existing →
      updateClassSchemaOk ⟨none, none, none, none, none, none, none, some items⟩ = true →
      (∃ c, (updateClass db id
        ⟨none, none, none, none, none, none, none, some items⟩).2 = .ok 200 c) ∧
      (∀ it ∈ items, ∃ s ∈ (updateClass db id
          ⟨none, none, none, none, none, none, none, some items⟩).1.schedules,
        s.classId = id ∧ s.subjectId = it.subjectId ∧
        s.startTime = it.startTime ∧ s.endTime = it.endTime ∧ s.room = it.room)) := by
  constructor
  · intro db data items hsch hbad
    have hne := validateScheduleItems_some_of_bad data.subjectIds items hbad
    rcases hval : validateScheduleItems data.subjectIds items with _ | msg
    · exact absurd hval hne
    · unfold createClass
      rw [hsch]
      dsimp only
      rw [hval]
      dsimp only
      repeat' split
      all_goals exact ⟨_, rfl⟩
  · intro db id items existing hfind hzod
    have hred : updateClass db id ⟨none, none, none, none, none, none, none, some items⟩ =
        (insertSchedules
          { db with
              classes := db.classes.map fun c =>
                if c.id == id then
                  mergeClass existing ⟨none, none, none, none, none, none, none, some items⟩
                else c,
              schedules := db.schedules.filter fun s => s.classId != id }
          id items,
         .ok 200 (mergeClass existing ⟨none, none, none, none, none, none, none, some items⟩)) := by
      unfold updateClass
      rw [hzod, hfind]
      rfl
    constructor
    · exact ⟨_, by rw [hred]⟩
    · intro it hit
      rw [hred]
      exact insertSchedules_mem items _ id it hit

end Madara

namespace Madara

/-- Counterexample to C7 as stated: a class-update request whose schedule
entry runs backwards (`10:00`-`09:00`) and names subject 9, not in the
class's subject set `[7]`, is not rejected — it succeeds with 200 and the
entry is persisted verbatim. -/
theorem schedule_validation_update_counterexample :
    (updateClass dbC1 2 ⟨none, none, none, none, none, none, none,
      some [⟨9, 1, "10:00", "09:00", none⟩]⟩).2 = .ok 200 clsC1 ∧
    ⟨100, 2, 9, 1, "10:00", "09:00", none⟩ ∈
      (updateClass dbC1 2 ⟨none, none, none, none, none, none, none,
        some [⟨9, 1, "10:00", "09:00", none⟩]⟩).1.schedules ∧
    validateScheduleTime "10:00" "09:00" = false ∧
    ([7] : List Nat).contains 9 = false := by decide

/-- Witness for C7 (amended): a creation with the same malformed entry is
rejected and leaves the store untouched, while a schedule-only update on
class 2 succeeds. -/
theorem schedule_validation_create_only_witness :
    (∃ msg, createClass dbC1 ⟨"New", 1, none, [7], none, 10, "2024",
        some [⟨9, 1, "10:00", "09:00", none⟩]⟩ = (dbC1, .err 400 msg)) ∧
    (∃ c, (updateClass dbC1 2 ⟨none, none, none, none, none, none, none,
        some [⟨7, 1, "09:00", "10:00", none⟩]⟩).2 = .ok 200 c) :=
  ⟨schedule_validation_create_only.1 dbC1
      ⟨"New", 1, none, [7], none, 10, "2024", some [⟨9, 1, "10:00", "09:00", none⟩]⟩
      [⟨9, 1, "10:00", "09:00", none⟩] rfl
      ⟨⟨9, 1, "10:00", "09:00", none⟩, List.mem_singleton_self _, Or.inl (by decide)⟩,
   (schedule_validation_create_only.2 dbC1 2 [⟨7, 1, "09:00", "10:00", none⟩] clsC1
      (by decide) (by decide)).1⟩

end Madara

namespace Madara

theorem mem_insertByHoursDesc (x y : RoomInfo) :
    ∀ l : List RoomInfo, x ∈ insertByHoursDesc y l ↔ x = y ∨ x ∈ l := by
  intro l
  induction l with
  | nil => simp [insertByHoursDesc]
  | cons z zs ih =>
    unfold insertByHoursDesc
    split
    · simp
    · rw [List.mem_cons, ih, List.mem_cons]
      tauto

theorem mem_sortByHoursDesc (x : RoomInfo) :
    ∀ l : List RoomInfo, x ∈ sortByHoursDesc l ↔ x ∈ l := by
  intro l
  induction l with
  | nil => simp [sortByHoursDesc]
  | cons z zs ih =>
    unfold sortByHoursDesc
    rw [mem_insertByHoursDesc, ih, List.mem_cons]

theorem pairwise_insertByHoursDesc (y : RoomInfo) :
    ∀ l : List RoomInfo, (l.Pairwise fun a b => b.totalHours ≤ a.totalHours) →
      (insertByHoursDesc y l).Pairwise fun a b => b.totalHours ≤ a.totalHours := by
  intro l
  induction l with
  | nil => intro _; exact List.pairwise_singleton _ _
  | cons z zs ih =>
    intro h
    rw [List.pairwise_cons] at h
    unfold insertByHoursDesc
    split
    · rename_i hlt
      rw [List.pairwise_cons]
      constructor
      · intro w hw
        rcases List.mem_cons.mp hw with rfl | hw'
        · exact le_of_lt hlt
        · exact (h.1 w hw').trans (le_of_lt hlt)
      · rw [List.pairwise_cons]
        exact h
    · rename_i hnlt
      rw [List.pairwise_cons]
      constructor
      · intro w hw
        rcases (mem_insertByHoursDesc w y zs).mp hw with rfl | hw'
        · exact le_of_not_lt hnlt
        · exact h.1 w hw'
      · exact ih h.2

theorem pairwise_sortByHoursDesc :
    ∀ l : List RoomInfo,
      (sortByHoursDesc l).Pairwise fun a b => b.totalHours ≤ a.totalHours := by
  intro l
  induction l with
  | nil => exact List.Pairwise.nil
  | cons z zs ih => exact pairwise_insertByHoursDesc z _ ih

end Madara

namespace Madara

theorem roomFoldStep_ok (db : DB) (processed : List ClassSchedule)
    (T : List (String × RoomInfo)) (s : ClassSchedule)
    (h : RoomTableOk processed T) : RoomTableOk (processed ++ [s]) (roomFoldStep db T s) := by
  obtain ⟨hnd, hok, hcomp⟩ := h
  by_cases hempty : (roomVal s.room == "") = true
  case pos =>
    have hmatch : ∀ key', roomMatches (processed ++ [s]) key' = roomMatches processed key' := by
      intro key'
      unfold roomMatches
      rw [List.filter_append, List.filter_cons, List.filter_nil]
      have hf : (roomVal s.room != "" && lowerStr (roomVal s.room) == key') = false := by
        have he : roomVal s.room = "" := by simpa using hempty
        simp [he]
      rw [hf]
      simp
    unfold roomFoldStep
    rw [if_pos hempty]
    refine ⟨hnd, ?_, ?_⟩
    · intro kv hkv
      have hk := hok kv hkv
      unfold RoomEntryOk at hk ⊢
      rw [hmatch]
      exact hk
    · intro s' hs' hroom
      rcases List.mem_append.mp hs' with h' | h'
      · exact hcomp s' h' hroom
      · rw [List.mem_singleton] at h'
        subst h'
        exact absurd (by simpa using hempty) hroom
  case neg =>
    rw [Bool.not_eq_true] at hempty
    have hne : roomVal s.room ≠ "" := by simpa using hempty
    have hneB : (roomVal s.room != "") = true := by simpa using hne
    have hmatch : ∀ key', roomMatches (processed ++ [s]) key' =
        if (lowerStr (roomVal s.room) == key') = true
        then roomMatches processed key' ++ [s] else roomMatches processed key' := by
      intro key'
      unfold roomMatches
      rw [List.filter_append, List.filter_cons, List.filter_nil]
      by_cases hk : (lowerStr (roomVal s.room) == key') = true
      · rw [if_pos hk]
        rw [show (roomVal s.room != "" && lowerStr (roomVal s.room) == key') = true by
          rw [hneB, hk]; rfl]
        simp
      · rw [if_neg hk]
        rw [show (roomVal s.room != "" && lowerStr (roomVal s.room) == key') = false by
          rw [hneB]
          simpa using hk]
        simp
    unfold roomFoldStep
    rw [if_neg (by simp [hempty])]
    dsimp only
    by_cases hpres : (T.any fun kv => kv.1 == lowerStr (roomVal s.room)) = true
    case pos =>
      rw [if_pos hpres]
      have hg1 : ∀ kv : String × RoomInfo,
          ((if (kv.1 == lowerStr (roomVal s.room)) = true then
            (kv.1,
              { kv.2 with
                totalHours := kv.2.totalHours + durationHours s
                sessions := kv.2.sessions ++ [(s, durationHours s)]
                conflicts := kv.2.conflicts ++ checkScheduleConflicts db s (some s.id) })
          else kv)).1 = kv.1 := by
        intro kv
        split <;> rfl
      refine ⟨?_, ?_, ?_⟩
      · rw [List.pairwise_map]
        refine hnd.imp_of_mem ?_
        intro a b _ _ hne'
        rw [hg1, hg1]
        exact hne'
      · intro kv' hkv'
        rw [List.mem_map] at hkv'
        obtain ⟨kv, hkv, rfl⟩ := hkv'
        obtain ⟨hk1, hk2, ⟨s0, rest0, hfirst, hcase⟩, hhours, hsess⟩ := hok kv hkv
        by_cases hkey : (kv.1 == lowerStr (roomVal s.room)) = true
        · have hkeyEq : kv.1 = lowerStr (roomVal s.room) := beq_iff_eq.mp hkey
          rw [if_pos hkey]
          have hcond : (lowerStr (roomVal s.room) == kv.1) = true :=
            beq_iff_eq.mpr hkeyEq.symm
          refine ⟨hk1, hk2, ⟨s0, rest0 ++ [s], ?_, hcase⟩, ?_, ?_⟩
          · rw [hmatch kv.1, if_pos hcond, hfirst, List.cons_append]
          · rw [hmatch kv.1, if_pos hcond, List.map_append, List.sum_append]
            rw [hhours]
            simp
          · rw [hmatch kv.1, if_pos hcond, List.map_append]
            rw [hsess]
            rfl
        · rw [if_neg hkey]
          have hcond : ¬((lowerStr (roomVal s.room) == kv.1) = true) := by
            intro hcon
            exact hkey (beq_iff_eq.mpr (beq_iff_eq.mp hcon).symm)
          refine ⟨hk1, hk2, ⟨s0, rest0, ?_, hcase⟩, ?_, ?_⟩
          · rw [hmatch kv.1, if_neg hcond]
            exact hfirst
          · rw [hmatch kv.1, if_neg hcond]
            exact hhours
          · rw [hmatch kv.1, if_neg hcond]
            exact hsess
      · intro s' hs' hroom
        rcases List.mem_append.mp hs' with h' | h'
        · obtain ⟨kv, hkv, hkvkey⟩ := hcomp s' h' hroom
          refine ⟨_, List.mem_map_of_mem _ hkv, ?_⟩
          rw [hg1]
          exact hkvkey
        · rw [List.mem_singleton] at h'
          subst h'
          rw [List.any_eq_true] at hpres
          obtain ⟨kv, hkv, hkveq⟩ := hpres
          refine ⟨_, List.mem_map_of_mem _ hkv, ?_⟩
          rw [hg1]
          exact beq_iff_eq.mp hkveq
    case neg =>
      rw [if_neg hpres]
      rw [Bool.not_eq_true, List.any_eq_false] at hpres
      have hanyne : ∀ kv ∈ T, kv.1 ≠ lowerStr (roomVal s.room) := by
        intro kv hkv hcon
        exact absurd (beq_iff_eq.mpr hcon) (by simpa using hpres kv hkv)
      have hself : (lowerStr (roomVal s.room) == lowerStr (roomVal s.room)) = true :=
        beq_iff_eq.mpr rfl
      have hnomatch : roomMatches processed (lowerStr (roomVal s.room)) = [] := by
        rcases hpm : roomMatches processed (lowerStr (roomVal s.room)) with _ | ⟨a, l⟩
        · rfl
        · exfalso
          have ha : a ∈ roomMatches processed (lowerStr (roomVal s.room)) := by
            rw [hpm]; exact List.mem_cons_self _ _
          unfold roomMatches at ha
          rw [List.mem_filter] at ha
          obtain ⟨hamem, hapred⟩ := ha
          rw [Bool.and_eq_true] at hapred
          have haroom : roomVal a.room ≠ "" := by simpa using hapred.1
          have hakey : lowerStr (roomVal a.room) = lowerStr (roomVal s.room) :=
            beq_iff_eq.mp hapred.2
          obtain ⟨kv, hkv, hkvkey⟩ := hcomp a hamem haroom
          exact hanyne kv hkv (hkvkey.trans hakey)
      refine ⟨?_, ?_, ?_⟩
      · rw [List.pairwise_append]
        refine ⟨hnd, List.pairwise_singleton _ _, ?_⟩
        intro a ha b hb
        rw [List.mem_singleton] at hb
        subst hb
        exact hanyne a ha
      · intro kv' hkv'
        rcases List.mem_append.mp hkv' with h' | h'
        · obtain ⟨hk1, hk2, ⟨s0, rest0, hfirst, hcase⟩, hhours, hsess⟩ := hok kv' h'
          have hcond : ¬((lowerStr (roomVal s.room) == kv'.1) = true) := by
            intro hcon
            exact hanyne kv' h' (beq_iff_eq.mp hcon).symm
          refine ⟨hk1, hk2, ⟨s0, rest0, ?_, hcase⟩, ?_, ?_⟩
          · rw [hmatch kv'.1, if_neg hcond]
            exact hfirst
          · rw [hmatch kv'.1, if_neg hcond]
            exact hhours
          · rw [hmatch kv'.1, if_neg hcond]
            exact hsess
        · rw [List.mem_singleton] at h'
          subst h'
          refine ⟨rfl, hne, ⟨s, [], ?_, rfl⟩, ?_, ?_⟩
          · rw [hmatch, if_pos hself, hnomatch]
            rfl
          · rw [hmatch, if_pos hself, hnomatch]
            simp
          · rw [hmatch, if_pos hself, hnomatch]
            rfl
      · intro s' hs' hroom
        rcases List.mem_append.mp hs' with h' | h'
        · obtain ⟨kv, hkv, hkvkey⟩ := hcomp s' h' hroom
          exact ⟨kv, List.mem_append_left _ hkv, hkvkey⟩
        · rw [List.mem_singleton] at h'
          subst h'
          exact ⟨_, List.mem_append_right _ (List.mem_singleton_self _), rfl⟩

end Madara

namespace Madara

theorem roomTableOk_nil : RoomTableOk [] [] := by
  refine ⟨List.Pairwise.nil, ?_, ?_⟩
  · intro kv hkv
    simp at hkv
  · intro s hs
    simp at hs

theorem roomFold_ok (db : DB) :
    ∀ (rest processed : List ClassSchedule) (T : List (String × RoomInfo)),
      RoomTableOk processed T →
      RoomTableOk (processed ++ rest) (rest.foldl (roomFoldStep db) T) := by
  intro rest
  induction rest with
  | nil =>
    intro processed T h
    simpa using h
  | cons s rest ih =>
    intro processed T h
    rw [show processed ++ s :: rest = (processed ++ [s]) ++ rest by simp]
    exact ih (processed ++ [s]) (roomFoldStep db T s) (roomFoldStep_ok db processed T s h)

/-- **C8.** `getRoomUtilization` groups the schedule entries by the
case-insensitive room key, skipping every entry with an empty/absent room;
each reported room carries the first-seen casing of its label, a
`totalHours` equal to the plain sum of the session durations of all entries
matching the key (no dedup of overlaps), and the list of those sessions;
every truthy-room schedule entry is represented; and the result is sorted
by `totalHours` descending. -/
theorem getRoomUtilization_spec (db : DB) :
    ((getRoomUtilization db).Pairwise fun a b => b.totalHours ≤ a.totalHours) ∧
    (∀ ri ∈ getRoomUtilization db,
      ri.room ≠ "" ∧
      (∃ s0 rest0, roomMatches db.schedules (lowerStr ri.room) = s0 :: rest0 ∧
        ri.room = roomVal s0.room) ∧
      ri.totalHours = ((roomMatches db.schedules (lowerStr ri.room)).map durationHours).sum ∧
      ri.sessions = (roomMatches db.schedules (lowerStr ri.room)).map fun s =>
        (s, durationHours s)) ∧
    (∀ s ∈ db.schedules, roomVal s.room ≠ "" →
      ∃ ri ∈ getRoomUtilization db, lowerStr ri.room = lowerStr (roomVal s.room)) := by
  have htab : RoomTableOk db.schedules (db.schedules.foldl (roomFoldStep db) []) := by
    have h := roomFold_ok db db.schedules [] [] roomTableOk_nil
    simpa using h
  obtain ⟨_, hok, hcomp⟩ := htab
  refine ⟨pairwise_sortByHoursDesc _, ?_, ?_⟩
  · intro ri hri
    rw [getRoomUtilization, mem_sortByHoursDesc, List.mem_map] at hri
    obtain ⟨kv, hkv, hsnd⟩ := hri
    obtain ⟨hk1, hk2, hfirst, hhours, hsess⟩ := hok kv hkv
    subst hsnd
    rw [← hk1]
    exact ⟨hk2, hfirst, hhours, hsess⟩
  · intro s hs hroom
    obtain ⟨kv, hkv, hkvkey⟩ := hcomp s hs hroom
    refine ⟨kv.2, ?_, ?_⟩
    · rw [getRoomUtilization, mem_sortByHoursDesc]
      exact List.mem_map_of_mem _ hkv
    · obtain ⟨hk1, _, _, _, _⟩ := hok kv hkv
      rw [← hk1]
      exact hkvkey

/-- Witness for C8: on the concrete state `dbOv`, whose only schedule entry
`schedOv2` has the truthy room `"hall1"`, the completeness conjunct yields a
reported room whose key is that entry's lower-cased room label. -/
theorem getRoomUtilization_spec_witness :
    ∃ ri ∈ getRoomUtilization dbOv, lowerStr ri.room = lowerStr (roomVal schedOv2.room) :=
  (getRoomUtilization_spec dbOv).2.2 schedOv2 (List.mem_cons_self _ _) (by decide)

end Madara
